import Mathlib

/-!
# Kraken bridge, QuickJS bindings: `bridge/bindings/qjs/dom/element.cc`

A shallow embedding of the element binding: the attribute table
(`ElementAttributes`), the script-facing attribute entry points of `Element`,
element construction, the custom element registry, the reserved geometry
accessors, the `children` accessor, the generic property interception, the id
index maintenance, and the pixel export with its completion callback.

Conventions of the embedding.

* `std::string` is `String`; byte-wise ASCII operations of the source
  (`::tolower`, `name[0]`, `substr(0, 2)`) act on the character list, which
  agrees with the byte view on UTF-8 text because they only inspect or change
  ASCII bytes. Tag names and property keys are texts without a NUL character,
  for which `std::string(cname)` is the whole text.
* A script function `f(ctx, this_val, argc, argv)` becomes a function of the
  context state, the receiver (the `ElementInstance` behind `this_val`) and the
  argument list; `argc` is the length of that list. It returns the result
  together with the updated receiver and context.
* A thrown script exception (`JS_ThrowTypeError` returning `JS_EXCEPTION`) is
  the `error` side of `Except`.
* Script values are the primitive values and opaque object references. Symbols,
  floating point numbers and objects with a script-defined string conversion are
  outside the embedding, so `JS_ToString` is total here.
* An atom (`JSAtom`) is an interned string: `JS_ATOM_NULL` or the atom of a
  string. The runtime keeps a reference count per atom.
-/

deriving instance DecidableEq for Except

namespace kraken.binding.qjs

/-! ## Script engine values -/

/-- Error classes raised by the bindings. -/
inductive JSErrorKind where
  | TypeError
  | InternalError
  deriving DecidableEq, Repr

/-- Pending exception of the engine: its class and message. -/
structure JSException where
  kind : JSErrorKind
  message : String
  deriving DecidableEq, Repr

/-- Script values seen by the bindings. -/
inductive JSValue where
  | undefined
  | null
  | bool (b : Bool)
  | int (n : Int)
  | string (s : String)
  | object (ptr : Nat)
  deriving DecidableEq, Repr

/-- Result of a script-facing function: a value or a thrown exception. -/
abbrev JSResult := Except JSException JSValue

def JS_NULL : JSValue := JSValue.null

def JS_ThrowTypeError (message : String) : JSResult :=
  Except.error { kind := JSErrorKind.TypeError, message := message }

def JS_IsString (v : JSValue) : Bool :=
  match v with
  | JSValue.string _ => true
  | _ => false

/-- Text of a value, as `JS_ToCString` gives it (the engine applies `ToString`). -/
def JS_ToCString (v : JSValue) : String :=
  match v with
  | JSValue.undefined => "undefined"
  | JSValue.null => "null"
  | JSValue.bool true => "true"
  | JSValue.bool false => "false"
  | JSValue.int n => toString n
  | JSValue.string s => s
  | JSValue.object _ => "[object Object]"

def JS_ToString (v : JSValue) : JSValue :=
  JSValue.string (JS_ToCString v)

/-- The `std::string` built from a C string, `std::string(cname)`: the text up
to the first NUL character. -/
def std_string (cname : String) : String :=
  String.mk (cname.data.takeWhile (fun c => c != Char.ofNat 0))

/-- Modelled from the spec: the helper `jsValueToStdString` (declared outside
`element.cc`) gives the text of a value as a `std::string`. -/
def jsValueToStdString (v : JSValue) : String :=
  JS_ToCString v

/-! ## Atoms -/

/-- Interned string handle: `none` is `JS_ATOM_NULL`. -/
abbrev JSAtom := Option String

def JS_ATOM_NULL : JSAtom := none

/-- Value of an atom. `JS_ATOM_NULL` names no string; the embedding gives it
`undefined`. -/
def JS_AtomToValue (atom : JSAtom) : JSValue :=
  match atom with
  | some s => JSValue.string s
  | none => JSValue.undefined

/-- Text of an atom (`JS_AtomToCString`); empty for `JS_ATOM_NULL`. -/
def JS_AtomToCString (atom : JSAtom) : String :=
  match atom with
  | some s => s
  | none => ""

/-! ## `std::unordered_map` as an association list -/

namespace unordered_map

variable {κ ν : Type} [DecidableEq κ]

/-- Member function `count`: 1 when the key is present, else 0. -/
def count (m : List (κ × ν)) (k : κ) : Nat :=
  if (m.lookup k).isSome then 1 else 0

/-- Reading `m[k]`: a missing key is first inserted with the value-initialised
mapped value `dflt`. -/
def subscript (m : List (κ × ν)) (k : κ) (dflt : ν) : ν × List (κ × ν) :=
  match m.lookup k with
  | some v => (v, m)
  | none => (dflt, m ++ [(k, dflt)])

/-- Writing `m[k] = v`. -/
def assign (m : List (κ × ν)) (k : κ) (v : ν) : List (κ × ν) :=
  match m with
  | [] => [(k, v)]
  | (k1, v1) :: rest => if k1 = k then (k, v) :: rest else (k1, v1) :: assign rest k v

/-- Member function `erase(key)`. -/
def erase (m : List (κ × ν)) (k : κ) : List (κ × ν) :=
  m.filter (fun p => decide (p.1 ≠ k))

end unordered_map

/-! ## Command queue (`foundation::UICommandBuffer`) -/

/-- Modelled from the spec: the opcodes of `UICommand`, whose declaration is in
`foundation/ui_command_buffer.h` (create-element, set-property, remove-property,
dispose). -/
inductive UICommand where
  | createElement
  | disposeEventTarget
  | setProperty
  | removeProperty
  deriving DecidableEq, Repr

/-- One queued record: target native id, opcode, up to two string arguments and
the native pointer argument (`none` is `nullptr`). -/
structure UICommandItem where
  id : Int
  type : UICommand
  args_01 : Option String
  args_02 : Option String
  nativePtr : Option Nat
  deriving DecidableEq, Repr

/-! ## Calls that cross into the native (Dart) side -/

/-- Argument of a native method call. -/
inductive NativeValue where
  | int32 (n : Int)
  | string (s : String)
  deriving DecidableEq, Repr

/-- The completion context of a pixel export, `ToBlobPromiseContext`: the pixel
ratio, the deferred result and its two resolving functions. The numbers of the
embedding are the integers, and the `double` holds the same number. -/
structure ToBlobPromiseContext where
  devicePixelRatio : Int
  promise : JSValue
  resolve : JSValue
  reject : JSValue
  deriving DecidableEq, Repr

/-- One call into the native side, in the order issued. -/
inductive DartCall where
  | flushUICommand (drained : List UICommandItem)
  | callNativeMethods (eventTargetId : Int) (method : String) (args : List NativeValue)
  | toBlob (callbackContext : ToBlobPromiseContext) (eventTargetId : Int) (devicePixelRatio : Int)
  deriving DecidableEq, Repr

/-! ## Context state -/

/-- State of one script context that `element.cc` reads and writes:
the atom reference counts of the runtime, the command queue of the context,
the id index of the document (`m_elementMapById`), the log of calls into the
native side, and the allocation counters used by construction. -/
structure JSContext where
  atomRefs : JSAtom → Int
  commands : List UICommandItem
  m_elementMapById : List (JSAtom × Nat)
  dartCalls : List DartCall
  globalEventTargetId : Int
  heapTop : Nat

/-- Retain an atom (`JS_DupAtom`); `JS_ATOM_NULL` is a constant atom and is
not counted. -/
def JS_DupAtom (ctx : JSContext) (v : JSAtom) : JSAtom × JSContext :=
  match v with
  | none => (v, ctx)
  | some _ => (v, { ctx with atomRefs := Function.update ctx.atomRefs v (ctx.atomRefs v + 1) })

/-- Release an atom (`JS_FreeAtom`); `JS_ATOM_NULL` is a constant atom and is
not counted. -/
def JS_FreeAtom (ctx : JSContext) (v : JSAtom) : JSContext :=
  match v with
  | none => ctx
  | some _ => { ctx with atomRefs := Function.update ctx.atomRefs v (ctx.atomRefs v - 1) }

/-- Intern the text of a value and return an owned atom (`JS_ValueToAtom`). -/
def JS_ValueToAtom (ctx : JSContext) (v : JSValue) : JSAtom × JSContext :=
  JS_DupAtom ctx (some (JS_ToCString v))

/-- Modelled from the spec: `UICommandBuffer::addCommand` (defined in
`foundation/ui_command_buffer.cc`) appends one record at the end of the queue
of the context and never fails. -/
def addCommand (ctx : JSContext) (item : UICommandItem) : JSContext :=
  { ctx with commands := ctx.commands ++ [item] }

/-- Modelled from the spec: the `flushUICommand` hook of the native side drains
the whole queue in FIFO order. The call is logged with the drained records. -/
def flushUICommand (ctx : JSContext) : JSContext :=
  { ctx with commands := [], dartCalls := ctx.dartCalls ++ [DartCall.flushUICommand ctx.commands] }

/-- Modelled from the spec: `DocumentInstance::addElementById` (defined in
`document.cc`) enters the element under the key, once. -/
def addElementById (ctx : JSContext) (id : JSAtom) (element : Nat) : JSContext :=
  if (id, element) ∈ ctx.m_elementMapById then ctx
  else { ctx with m_elementMapById := ctx.m_elementMapById ++ [(id, element)] }

/-- Modelled from the spec: `DocumentInstance::removeElementById` (defined in
`document.cc`) removes the element from under the key. -/
def removeElementById (ctx : JSContext) (id : JSAtom) (element : Nat) : JSContext :=
  { ctx with m_elementMapById := ctx.m_elementMapById.filter (fun p => decide (p ≠ (id, element))) }

/-! ## Attribute table (`ElementAttributes`) -/

def isNumberIndex (name : String) : Bool :=
  match name.data with
  | [] => false
  | f :: _ => decide (f ≥ '0') && decide (f ≤ '9')

/-- The attribute table: `m_attributes`. -/
structure ElementAttributes where
  m_attributes : List (String × JSAtom)
  deriving DecidableEq, Repr

namespace ElementAttributes

def getAttribute (self : ElementAttributes) (name : String) : JSAtom × ElementAttributes :=
  let numberIndex := isNumberIndex name
  if numberIndex then
    (JS_ATOM_NULL, self)
  else
    let r := unordered_map.subscript self.m_attributes name JS_ATOM_NULL
    (r.1, { m_attributes := r.2 })

def setAttribute (self : ElementAttributes) (name : String) (atom : JSAtom) :
    JSResult × ElementAttributes :=
  let numberIndex := isNumberIndex name
  if numberIndex then
    (JS_ThrowTypeError
      ("Failed to execute 'setAttribute' on 'Element': '" ++ name ++ "' is not a valid attribute name."),
     self)
  else
    (Except.ok JS_NULL, { m_attributes := unordered_map.assign self.m_attributes name atom })

def hasAttribute (self : ElementAttributes) (name : String) : Bool :=
  let numberIndex := isNumberIndex name
  if numberIndex then
    false
  else
    decide (unordered_map.count self.m_attributes name > 0)

def removeAttribute (ctx : JSContext) (self : ElementAttributes) (name : String) :
    ElementAttributes × JSContext :=
  let r := unordered_map.subscript self.m_attributes name JS_ATOM_NULL
  let value := r.1
  let ctx1 := JS_FreeAtom ctx value
  ({ m_attributes := unordered_map.erase r.2 name }, ctx1)

end ElementAttributes

/-! ## Nodes and elements -/

/-- Modelled from the spec: the node kinds of `NodeType` (declared in `node.h`). -/
inductive NodeType where
  | ELEMENT_NODE
  | TEXT_NODE
  | COMMENT_NODE
  | DOCUMENT_NODE
  | DOCUMENT_FRAGMENT_NODE
  deriving DecidableEq, Repr

/-- Host class a node instance was created from (the result of `prototype()`). -/
inductive HostClass where
  | Element
  | Node
  | named (className : String)
  deriving DecidableEq, Repr

/-- The fields of a node instance that `element.cc` uses. `self` is the address
of the instance (the `this` pointer, the identity under which the document
index holds it); `propertyEventHandler` is the event-handler slot storage of
the event target base class. `ElementInstance` is the same record. -/
structure NodeInstance where
  self : Nat
  nodeType : NodeType
  prototype : HostClass
  eventTargetId : Int
  m_tagName : String
  m_attributes : ElementAttributes
  m_properties : List (JSAtom × JSValue)
  propertyEventHandler : List (String × JSValue)
  deriving DecidableEq, Repr

abbrev ElementInstance := NodeInstance

/-- A node together with the subtree below it (`childNodes`, in document order). -/
inductive DOMNode where
  | mk (node : NodeInstance) (childNodes : List DOMNode)

/-- Lowercase a `std::string` in place: `std::transform(..., ::tolower)`. -/
def tolower (name : String) : String :=
  String.mk (name.data.map Char.toLower)

/-- Modelled from the spec: the helper `stringToNativeString` (declared outside
`element.cc`) carries the text to the native side as it is. -/
def stringToNativeString (s : String) : String := s

/-- Modelled from the spec: the helper `jsValueToNativeString` (declared
outside `element.cc`) carries the string form of a value to the native side. -/
def jsValueToNativeString (v : JSValue) : String :=
  JS_ToCString v

namespace ElementInstance

def _beforeUpdateId (ctx : JSContext) (self : ElementInstance) (oldId newId : JSAtom) : JSContext :=
  if oldId = newId then
    ctx
  else
    let ctx1 := if oldId ≠ JS_ATOM_NULL then removeElementById ctx oldId self.self else ctx
    if newId ≠ JS_ATOM_NULL then addElementById ctx1 newId self.self else ctx1

def _didModifyAttribute (ctx : JSContext) (self : ElementInstance) (name : String)
    (oldId newId : JSAtom) : JSContext :=
  if name = "id" then
    _beforeUpdateId ctx self oldId newId
  else
    ctx

end ElementInstance

/-! ## Subtree traversal -/

/-- Handler run on every visited node: it may update the node and the context,
and returns whether the visit should stop at this node. -/
abbrev TraverseHandler := NodeInstance → JSContext → Bool × NodeInstance × JSContext

mutual
/-- Modelled from the spec: `traverseNode` (declared in `node.h`) is a
depth-first visitor in pre-order, node before children, children in document
order; when the handler returns `true` the children of that node are skipped. -/
def traverseNode (handler : TraverseHandler) : DOMNode → JSContext → DOMNode × JSContext
  | DOMNode.mk node childNodes, ctx =>
    match handler node ctx with
    | (true, node1, ctx1) => (DOMNode.mk node1 childNodes, ctx1)
    | (false, node1, ctx1) =>
      let r := traverseNodes handler childNodes ctx1
      (DOMNode.mk node1 r.1, r.2)
/-- The visit of a child sequence, first to last. -/
def traverseNodes (handler : TraverseHandler) : List DOMNode → JSContext → List DOMNode × JSContext
  | [], ctx => ([], ctx)
  | n :: rest, ctx =>
    let r1 := traverseNode handler n ctx
    let r2 := traverseNodes handler rest r1.2
    (r1.1 :: r2.1, r2.2)
end

namespace ElementInstance

/-- Modelled from the spec: the base-class constructors of a node instance
(`NodeInstance` and the event target below it, defined in `node.cc`) give the
new instance a fresh address and the next native id, assigned exactly once, at
construction, before any command that names the instance is queued. -/
def new_NodeInstance (ctx : JSContext) (nodeType : NodeType) (prototype : HostClass)
    (tagName : String) : NodeInstance × JSContext :=
  ({ self := ctx.heapTop,
     nodeType := nodeType,
     prototype := prototype,
     eventTargetId := ctx.globalEventTargetId,
     m_tagName := tagName,
     m_attributes := { m_attributes := [] },
     m_properties := [],
     propertyEventHandler := [] },
   { ctx with heapTop := ctx.heapTop + 1, globalEventTargetId := ctx.globalEventTargetId + 1 })

/-- The constructor `ElementInstance::ElementInstance(element, tagName,
shouldAddUICommand)`: base-class construction as an element node of the
`Element` host class, a new empty attribute table, and the `createElement`
command when asked for. -/
def new_ElementInstance (ctx : JSContext) (tagName : String) (shouldAddUICommand : Bool) :
    ElementInstance × JSContext :=
  let (base, ctx1) := new_NodeInstance ctx NodeType.ELEMENT_NODE HostClass.Element tagName
  let self : ElementInstance := { base with m_tagName := tagName, m_attributes := { m_attributes := [] } }
  if shouldAddUICommand then
    let args_01 := stringToNativeString tagName
    (self, addCommand ctx1
      { id := self.eventTargetId, type := UICommand.createElement,
        args_01 := some args_01, args_02 := none, nativePtr := some self.self })
  else
    (self, ctx1)

/-- Modelled from the spec: `getPropertyHandler` of the event target base class
reads the event-handler slot of the key, `JS_NULL` when the slot is empty. -/
def getPropertyHandler (self : ElementInstance) (key : String) : JSValue :=
  match self.propertyEventHandler.lookup key with
  | some v => v
  | none => JS_NULL

end ElementInstance

/-- A registered custom element creator: given the context and the tag name it
builds the element instance. -/
abbrev ElementCreator := JSContext → String → ElementInstance × JSContext

/-- The shared prototype object of `Element` as the engine sees it: which keys
exist on its prototype chain (`JS_HasProperty`) and what a read through it with
a given receiver does (`JS_GetPropertyInternal`). -/
structure PrototypeObject where
  has : JSAtom → Bool
  get : JSAtom → JSContext → ElementInstance → JSResult × ElementInstance × JSContext

namespace Element

def hasAttribute (ctx : JSContext) (element : ElementInstance) (argv : List JSValue) :
    JSResult × ElementInstance × JSContext :=
  match argv with
  | [] =>
    (JS_ThrowTypeError
      "Failed to execute 'hasAttribute' on 'Element': 1 argument required, but only 0 present",
     element, ctx)
  | nameValue :: _ =>
    if !JS_IsString nameValue then
      (JS_ThrowTypeError "Failed to execute 'setAttribute' on 'Element': name attribute is not valid.",
       element, ctx)
    else
      let attributes := element.m_attributes
      let cname := JS_ToCString nameValue
      let name := std_string cname
      let result := JSValue.bool (attributes.hasAttribute name)
      (Except.ok result, element, ctx)

def setAttribute (ctx : JSContext) (element : ElementInstance) (argv : List JSValue) :
    JSResult × ElementInstance × JSContext :=
  match argv with
  | [nameValue, attributeValue] =>
    let attributeString := JS_ToString attributeValue
    let (attributeAtom, ctx1) := JS_ValueToAtom ctx attributeString
    if !JS_IsString nameValue then
      (JS_ThrowTypeError "Failed to execute 'setAttribute' on 'Element': name attribute is not valid.",
       element, ctx1)
    else
      let name := jsValueToStdString nameValue
      let name := tolower name
      let attributes := element.m_attributes
      if attributes.hasAttribute name then
        let (oldAtom, attributes1) := attributes.getAttribute name
        match attributes1.setAttribute name attributeAtom with
        | (Except.error e, attributes2) =>
          (Except.error e, { element with m_attributes := attributes2 }, ctx1)
        | (Except.ok _, attributes2) =>
          let element2 := { element with m_attributes := attributes2 }
          let ctx2 := element2._didModifyAttribute ctx1 name oldAtom attributeAtom
          let ctx3 := JS_FreeAtom ctx2 oldAtom
          let args_01 := stringToNativeString name
          let args_02 := jsValueToNativeString attributeString
          let ctx4 := addCommand ctx3
            { id := element2.eventTargetId, type := UICommand.setProperty,
              args_01 := some args_01, args_02 := some args_02, nativePtr := none }
          (Except.ok JS_NULL, element2, ctx4)
      else
        match attributes.setAttribute name attributeAtom with
        | (Except.error e, attributes2) =>
          (Except.error e, { element with m_attributes := attributes2 }, ctx1)
        | (Except.ok _, attributes2) =>
          let element2 := { element with m_attributes := attributes2 }
          let ctx2 := element2._didModifyAttribute ctx1 name JS_ATOM_NULL attributeAtom
          let args_01 := stringToNativeString name
          let args_02 := jsValueToNativeString attributeString
          let ctx3 := addCommand ctx2
            { id := element2.eventTargetId, type := UICommand.setProperty,
              args_01 := some args_01, args_02 := some args_02, nativePtr := none }
          (Except.ok JS_NULL, element2, ctx3)
  | _ =>
    (JS_ThrowTypeError
      ("Failed to execute 'setAttribute' on 'Element': 2 arguments required, but only "
        ++ toString argv.length ++ " present"),
     element, ctx)

def getAttribute (ctx : JSContext) (element : ElementInstance) (argv : List JSValue) :
    JSResult × ElementInstance × JSContext :=
  match argv with
  | [nameValue] =>
    if !JS_IsString nameValue then
      (JS_ThrowTypeError "Failed to execute 'setAttribute' on 'Element': name attribute is not valid.",
       element, ctx)
    else
      let name := jsValueToStdString nameValue
      let attributes := element.m_attributes
      if attributes.hasAttribute name then
        let (atom, attributes1) := attributes.getAttribute name
        (Except.ok (JS_AtomToValue atom), { element with m_attributes := attributes1 }, ctx)
      else
        (Except.ok JS_NULL, element, ctx)
  | _ =>
    (JS_ThrowTypeError
      "Failed to execute 'getAttribute' on 'Element': 1 argument required, but only 0 present",
     element, ctx)

def removeAttribute (ctx : JSContext) (element : ElementInstance) (argv : List JSValue) :
    JSResult × ElementInstance × JSContext :=
  match argv with
  | [nameValue] =>
    if !JS_IsString nameValue then
      (JS_ThrowTypeError "Failed to execute 'removeAttribute' on 'Element': name attribute is not valid.",
       element, ctx)
    else
      let name := jsValueToStdString nameValue
      let attributes := element.m_attributes
      if attributes.hasAttribute name then
        let (id, attributes1) := attributes.getAttribute name
        let (attributes2, ctx1) := ElementAttributes.removeAttribute ctx attributes1 name
        let element2 := { element with m_attributes := attributes2 }
        let ctx2 := element2._didModifyAttribute ctx1 name id JS_ATOM_NULL
        let args_01 := stringToNativeString name
        let ctx3 := addCommand ctx2
          { id := element2.eventTargetId, type := UICommand.removeProperty,
            args_01 := some args_01, args_02 := none, nativePtr := none }
        (Except.ok JS_NULL, element2, ctx3)
      else
        (Except.ok JS_NULL, element, ctx)
  | _ =>
    (JS_ThrowTypeError
      "Failed to execute 'removeAttribute' on 'Element': 1 argument required, but only 0 present",
     element, ctx)

def constructor (HTML_TARGET_ID : Int) (elementCreatorMap : List (String × ElementCreator))
    (ctx : JSContext) (argv : List JSValue) : Except JSException ElementInstance × JSContext :=
  match argv with
  | [] => (Except.error { kind := JSErrorKind.TypeError, message := "Illegal constructor" }, ctx)
  | tagName :: _ =>
    if !JS_IsString tagName then
      (Except.error { kind := JSErrorKind.TypeError, message := "Illegal constructor" }, ctx)
    else
      let name := JS_ToCString tagName
      if unordered_map.count elementCreatorMap name > 0 then
        match elementCreatorMap.lookup name with
        | some creator =>
          let (element, ctx1) := creator ctx name
          (Except.ok element, ctx1)
        | none => (Except.error { kind := JSErrorKind.InternalError, message := "" }, ctx)
      else if name = "HTML" then
        let (element, ctx1) := ElementInstance.new_ElementInstance ctx name false
        (Except.ok { element with eventTargetId := HTML_TARGET_ID }, ctx1)
      else
        let (element, ctx1) := ElementInstance.new_ElementInstance ctx name true
        (Except.ok element, ctx1)

def defineElement (elementCreatorMap : List (String × ElementCreator)) (tagName : String)
    (creator : ElementCreator) : List (String × ElementCreator) :=
  if unordered_map.count elementCreatorMap tagName > 0 then
    elementCreatorMap
  else
    unordered_map.assign elementCreatorMap tagName creator

end Element

/-! ## Reserved geometry accessors -/

inductive ViewModuleProperty where
  | offsetTop
  | offsetLeft
  | offsetWidth
  | offsetHeight
  | clientWidth
  | clientHeight
  | clientTop
  | clientLeft
  | scrollTop
  | scrollLeft
  | scrollHeight
  | scrollWidth
  deriving DecidableEq, Repr

/-- The enumerator value: `static_cast<int32_t>(ViewModuleProperty::p)`. -/
def ViewModuleProperty.toInt32 : ViewModuleProperty → Int
  | ViewModuleProperty.offsetTop => 0
  | ViewModuleProperty.offsetLeft => 1
  | ViewModuleProperty.offsetWidth => 2
  | ViewModuleProperty.offsetHeight => 3
  | ViewModuleProperty.clientWidth => 4
  | ViewModuleProperty.clientHeight => 5
  | ViewModuleProperty.clientTop => 6
  | ViewModuleProperty.clientLeft => 7
  | ViewModuleProperty.scrollTop => 8
  | ViewModuleProperty.scrollLeft => 9
  | ViewModuleProperty.scrollHeight => 10
  | ViewModuleProperty.scrollWidth => 11

def Native_NewInt32 (n : Int) : NativeValue := NativeValue.int32 n

/-- The answers of the native side to synchronous method calls, by target
native id, method name and arguments. -/
abbrev NativeAnswer := Int → String → List NativeValue → JSValue

/-- Modelled from the spec: `callNativeMethods` of the event target base class
issues one synchronous request to the native side for the native id of the
element and returns its answer. The request is logged. -/
def ElementInstance.callNativeMethods (native : NativeAnswer) (ctx : JSContext)
    (self : ElementInstance) (method : String) (args : List NativeValue) : JSResult × JSContext :=
  (Except.ok (native self.eventTargetId method args),
   { ctx with dartCalls := ctx.dartCalls ++ [DartCall.callNativeMethods self.eventTargetId method args] })

namespace Element

def offsetLeftPropertyDescriptor.getter (native : NativeAnswer) (ctx : JSContext)
    (element : ElementInstance) (_argv : List JSValue) : JSResult × ElementInstance × JSContext :=
  let ctx1 := flushUICommand ctx
  let args := [Native_NewInt32 (ViewModuleProperty.toInt32 ViewModuleProperty.offsetLeft)]
  let r := element.callNativeMethods native ctx1 "getViewModuleProperty" args
  (r.1, element, r.2)

def offsetLeftPropertyDescriptor.setter (ctx : JSContext) (element : ElementInstance)
    (_argv : List JSValue) : JSResult × ElementInstance × JSContext :=
  (Except.ok JS_NULL, element, ctx)

def offsetTopPropertyDescriptor.getter (native : NativeAnswer) (ctx : JSContext)
    (element : ElementInstance) (_argv : List JSValue) : JSResult × ElementInstance × JSContext :=
  let ctx1 := flushUICommand ctx
  let args := [Native_NewInt32 (ViewModuleProperty.toInt32 ViewModuleProperty.offsetTop)]
  let r := element.callNativeMethods native ctx1 "getViewModuleProperty" args
  (r.1, element, r.2)

def offsetTopPropertyDescriptor.setter (ctx : JSContext) (element : ElementInstance)
    (_argv : List JSValue) : JSResult × ElementInstance × JSContext :=
  (Except.ok JS_NULL, element, ctx)

def offsetWidthPropertyDescriptor.getter (native : NativeAnswer) (ctx : JSContext)
    (element : ElementInstance) (_argv : List JSValue) : JSResult × ElementInstance × JSContext :=
  let ctx1 := flushUICommand ctx
  let args := [Native_NewInt32 (ViewModuleProperty.toInt32 ViewModuleProperty.offsetWidth)]
  let r := element.callNativeMethods native ctx1 "getViewModuleProperty" args
  (r.1, element, r.2)

def offsetWidthPropertyDescriptor.setter (ctx : JSContext) (element : ElementInstance)
    (_argv : List JSValue) : JSResult × ElementInstance × JSContext :=
  (Except.ok JS_NULL, element, ctx)

def offsetHeightPropertyDescriptor.getter (native : NativeAnswer) (ctx : JSContext)
    (element : ElementInstance) (_argv : List JSValue) : JSResult × ElementInstance × JSContext :=
  let ctx1 := flushUICommand ctx
  let args := [Native_NewInt32 (ViewModuleProperty.toInt32 ViewModuleProperty.offsetHeight)]
  let r := element.callNativeMethods native ctx1 "getViewModuleProperty" args
  (r.1, element, r.2)

def offsetHeightPropertyDescriptor.setter (ctx : JSContext) (element : ElementInstance)
    (_argv : List JSValue) : JSResult × ElementInstance × JSContext :=
  (Except.ok JS_NULL, element, ctx)

def clientWidthPropertyDescriptor.getter (native : NativeAnswer) (ctx : JSContext)
    (element : ElementInstance) (_argv : List JSValue) : JSResult × ElementInstance × JSContext :=
  let ctx1 := flushUICommand ctx
  let args := [Native_NewInt32 (ViewModuleProperty.toInt32 ViewModuleProperty.clientWidth)]
  let r := element.callNativeMethods native ctx1 "getViewModuleProperty" args
  (r.1, element, r.2)

def clientWidthPropertyDescriptor.setter (ctx : JSContext) (element : ElementInstance)
    (_argv : List JSValue) : JSResult × ElementInstance × JSContext :=
  (Except.ok JS_NULL, element, ctx)

def clientHeightPropertyDescriptor.getter (native : NativeAnswer) (ctx : JSContext)
    (element : ElementInstance) (_argv : List JSValue) : JSResult × ElementInstance × JSContext :=
  let ctx1 := flushUICommand ctx
  let args := [Native_NewInt32 (ViewModuleProperty.toInt32 ViewModuleProperty.clientHeight)]
  let r := element.callNativeMethods native ctx1 "getViewModuleProperty" args
  (r.1, element, r.2)

def clientHeightPropertyDescriptor.setter (ctx : JSContext) (element : ElementInstance)
    (_argv : List JSValue) : JSResult × ElementInstance × JSContext :=
  (Except.ok JS_NULL, element, ctx)

def clientTopPropertyDescriptor.getter (native : NativeAnswer) (ctx : JSContext)
    (element : ElementInstance) (_argv : List JSValue) : JSResult × ElementInstance × JSContext :=
  let ctx1 := flushUICommand ctx
  let args := [Native_NewInt32 (ViewModuleProperty.toInt32 ViewModuleProperty.clientTop)]
  let r := element.callNativeMethods native ctx1 "getViewModuleProperty" args
  (r.1, element, r.2)

def clientTopPropertyDescriptor.setter (ctx : JSContext) (element : ElementInstance)
    (_argv : List JSValue) : JSResult × ElementInstance × JSContext :=
  (Except.ok JS_NULL, element, ctx)

def clientLeftPropertyDescriptor.getter (native : NativeAnswer) (ctx : JSContext)
    (element : ElementInstance) (_argv : List JSValue) : JSResult × ElementInstance × JSContext :=
  let ctx1 := flushUICommand ctx
  let args := [Native_NewInt32 (ViewModuleProperty.toInt32 ViewModuleProperty.clientLeft)]
  let r := element.callNativeMethods native ctx1 "getViewModuleProperty" args
  (r.1, element, r.2)

def clientLeftPropertyDescriptor.setter (ctx : JSContext) (element : ElementInstance)
    (_argv : List JSValue) : JSResult × ElementInstance × JSContext :=
  (Except.ok JS_NULL, element, ctx)

def scrollTopPropertyDescriptor.getter (native : NativeAnswer) (ctx : JSContext)
    (element : ElementInstance) (_argv : List JSValue) : JSResult × ElementInstance × JSContext :=
  let ctx1 := flushUICommand ctx
  let args := [Native_NewInt32 (ViewModuleProperty.toInt32 ViewModuleProperty.scrollTop)]
  let r := element.callNativeMethods native ctx1 "getViewModuleProperty" args
  (r.1, element, r.2)

def scrollTopPropertyDescriptor.setter (ctx : JSContext) (element : ElementInstance)
    (_argv : List JSValue) : JSResult × ElementInstance × JSContext :=
  (Except.ok JS_NULL, element, ctx)

def scrollLeftPropertyDescriptor.getter (native : NativeAnswer) (ctx : JSContext)
    (element : ElementInstance) (_argv : List JSValue) : JSResult × ElementInstance × JSContext :=
  let ctx1 := flushUICommand ctx
  let args := [Native_NewInt32 (ViewModuleProperty.toInt32 ViewModuleProperty.scrollLeft)]
  let r := element.callNativeMethods native ctx1 "getViewModuleProperty" args
  (r.1, element, r.2)

def scrollLeftPropertyDescriptor.setter (ctx : JSContext) (element : ElementInstance)
    (_argv : List JSValue) : JSResult × ElementInstance × JSContext :=
  (Except.ok JS_NULL, element, ctx)

def scrollHeightPropertyDescriptor.getter (native : NativeAnswer) (ctx : JSContext)
    (element : ElementInstance) (_argv : List JSValue) : JSResult × ElementInstance × JSContext :=
  let ctx1 := flushUICommand ctx
  let args := [Native_NewInt32 (ViewModuleProperty.toInt32 ViewModuleProperty.scrollHeight)]
  let r := element.callNativeMethods native ctx1 "getViewModuleProperty" args
  (r.1, element, r.2)

def scrollHeightPropertyDescriptor.setter (ctx : JSContext) (element : ElementInstance)
    (_argv : List JSValue) : JSResult × ElementInstance × JSContext :=
  (Except.ok JS_NULL, element, ctx)

def scrollWidthPropertyDescriptor.getter (native : NativeAnswer) (ctx : JSContext)
    (element : ElementInstance) (_argv : List JSValue) : JSResult × ElementInstance × JSContext :=
  let ctx1 := flushUICommand ctx
  let args := [Native_NewInt32 (ViewModuleProperty.toInt32 ViewModuleProperty.scrollWidth)]
  let r := element.callNativeMethods native ctx1 "getViewModuleProperty" args
  (r.1, element, r.2)

def scrollWidthPropertyDescriptor.setter (ctx : JSContext) (element : ElementInstance)
    (_argv : List JSValue) : JSResult × ElementInstance × JSContext :=
  (Except.ok JS_NULL, element, ctx)

end Element

/-! ## Generic property interception -/

namespace ElementInstance

/-- The exotic `get_property` hook. `proto` stands for the prototype object of
the host class of the element (`prototype->m_prototypeObject`). -/
def getProperty (proto : PrototypeObject) (ctx : JSContext) (element : ElementInstance)
    (atom : JSAtom) : JSResult × ElementInstance × JSContext :=
  if proto.has atom then
    proto.get atom ctx element
  else
    let key := JS_AtomToCString atom
    if String.mk (key.data.take 2) = "on" then
      (Except.ok (element.getPropertyHandler key), element, ctx)
    else
      let r := unordered_map.subscript element.m_properties atom (JSValue.int 0)
      (Except.ok r.1, { element with m_properties := r.2 }, ctx)

end ElementInstance

/-! ## Script sequences used in the statements -/

/-- The script sequence `setAttribute(name, v1); setAttribute(name, v2);
getAttribute(name)` on one element: the three results, then the final element
and context. -/
def setSetGet (ctx : JSContext) (element : ElementInstance) (name : String) (v1 v2 : JSValue) :
    JSResult × JSResult × JSResult × ElementInstance × JSContext :=
  let r1 := Element.setAttribute ctx element [JSValue.string name, v1]
  let r2 := Element.setAttribute r1.2.2 r1.2.1 [JSValue.string name, v2]
  let r3 := Element.getAttribute r2.2.2 r2.2.1 [JSValue.string name]
  (r1.1, r2.1, r3.1, r3.2.1, r3.2.2)

/-- An empty context: no atom retained, empty queue, empty index, no native call
yet. -/
def emptyContext : JSContext :=
  { atomRefs := fun _ => 0, commands := [], m_elementMapById := [], dartCalls := [],
    globalEventTargetId := 1, heapTop := 16 }

/-- A freshly built `div` element at address 7 with native id 3. -/
def sampleElement : ElementInstance :=
  { self := 7, nodeType := NodeType.ELEMENT_NODE, prototype := HostClass.Element,
    eventTargetId := 3, m_tagName := "div", m_attributes := { m_attributes := [] },
    m_properties := [], propertyEventHandler := [] }

/-- The same element with a `title` attribute already set. -/
def sampleElementWithTitle : ElementInstance :=
  { sampleElement with m_attributes := { m_attributes := [("title", some "t")] } }

/-- A context in which the queue holds the `create-element` record of the sample
element and the index holds an entry for another element. -/
def sampleContext : JSContext :=
  { emptyContext with
    commands := [{ id := 3, type := UICommand.createElement, args_01 := some "div",
                   args_02 := none, nativePtr := some 7 }],
    m_elementMapById := [(some "other", 9)] }

/-- A creator that builds an `img` instance of its own class and queues nothing. -/
def sampleCreator : ElementCreator := fun ctx tagName =>
  ({ self := ctx.heapTop, nodeType := NodeType.ELEMENT_NODE,
     prototype := HostClass.named "ImageElement",
     eventTargetId := ctx.globalEventTargetId, m_tagName := tagName,
     m_attributes := { m_attributes := [] }, m_properties := [], propertyEventHandler := [] },
   { ctx with heapTop := ctx.heapTop + 1, globalEventTargetId := ctx.globalEventTargetId + 1 })

/-- Another creator for the same purpose, of a different class. -/
def otherCreator : ElementCreator := fun ctx tagName =>
  ({ self := ctx.heapTop, nodeType := NodeType.ELEMENT_NODE,
     prototype := HostClass.named "CanvasElement",
     eventTargetId := ctx.globalEventTargetId, m_tagName := tagName,
     m_attributes := { m_attributes := [] }, m_properties := [], propertyEventHandler := [] },
   { ctx with heapTop := ctx.heapTop + 1, globalEventTargetId := ctx.globalEventTargetId + 1 })

/-- The getter that `PROP_GETTER(Element, p)` defines for each reserved geometry
accessor p. -/
def Element.geometryGetter : ViewModuleProperty →
    NativeAnswer → JSContext → ElementInstance → List JSValue → JSResult × ElementInstance × JSContext
  | ViewModuleProperty.offsetTop => Element.offsetTopPropertyDescriptor.getter
  | ViewModuleProperty.offsetLeft => Element.offsetLeftPropertyDescriptor.getter
  | ViewModuleProperty.offsetWidth => Element.offsetWidthPropertyDescriptor.getter
  | ViewModuleProperty.offsetHeight => Element.offsetHeightPropertyDescriptor.getter
  | ViewModuleProperty.clientWidth => Element.clientWidthPropertyDescriptor.getter
  | ViewModuleProperty.clientHeight => Element.clientHeightPropertyDescriptor.getter
  | ViewModuleProperty.clientTop => Element.clientTopPropertyDescriptor.getter
  | ViewModuleProperty.clientLeft => Element.clientLeftPropertyDescriptor.getter
  | ViewModuleProperty.scrollTop => Element.scrollTopPropertyDescriptor.getter
  | ViewModuleProperty.scrollLeft => Element.scrollLeftPropertyDescriptor.getter
  | ViewModuleProperty.scrollHeight => Element.scrollHeightPropertyDescriptor.getter
  | ViewModuleProperty.scrollWidth => Element.scrollWidthPropertyDescriptor.getter

/-- The setter that `PROP_SETTER(Element, p)` defines for each reserved geometry
accessor p. -/
def Element.geometrySetter : ViewModuleProperty →
    JSContext → ElementInstance → List JSValue → JSResult × ElementInstance × JSContext
  | ViewModuleProperty.offsetTop => Element.offsetTopPropertyDescriptor.setter
  | ViewModuleProperty.offsetLeft => Element.offsetLeftPropertyDescriptor.setter
  | ViewModuleProperty.offsetWidth => Element.offsetWidthPropertyDescriptor.setter
  | ViewModuleProperty.offsetHeight => Element.offsetHeightPropertyDescriptor.setter
  | ViewModuleProperty.clientWidth => Element.clientWidthPropertyDescriptor.setter
  | ViewModuleProperty.clientHeight => Element.clientHeightPropertyDescriptor.setter
  | ViewModuleProperty.clientTop => Element.clientTopPropertyDescriptor.setter
  | ViewModuleProperty.clientLeft => Element.clientLeftPropertyDescriptor.setter
  | ViewModuleProperty.scrollTop => Element.scrollTopPropertyDescriptor.setter
  | ViewModuleProperty.scrollLeft => Element.scrollLeftPropertyDescriptor.setter
  | ViewModuleProperty.scrollHeight => Element.scrollHeightPropertyDescriptor.setter
  | ViewModuleProperty.scrollWidth => Element.scrollWidthPropertyDescriptor.setter

/-- The three-way decision of the spec for a property access. -/
inductive PropertyDispatch where
  | ReservedAccessor
  | EventHandlerSlot
  | Expando
  deriving DecidableEq, Repr

/-- The classification as the spec words it: a key that exists on the shared
prototype chain is a reserved accessor; otherwise a key with the two-character
event-handler beginning "on" is an event-handler slot; otherwise it is an
expando field. -/
def PropertyDispatch.classify (onPrototypeChain : Bool) (key : String) : PropertyDispatch :=
  if onPrototypeChain then PropertyDispatch.ReservedAccessor
  else if key.data.take 2 = ['o', 'n'] then PropertyDispatch.EventHandlerSlot
  else PropertyDispatch.Expando

/-- A prototype object that has `offsetWidth` and `onclick` on its chain and
answers every read through it with the integer 1. -/
def samplePrototype : PrototypeObject :=
  { has := fun atom => decide (atom = some "offsetWidth" ∨ atom = some "onclick"),
    get := fun _ ctx element => (Except.ok (JSValue.int 1), element, ctx) }

/-! ## The id index along a sequence of events on one element -/

/-- The node at the root of a subtree. -/
def DOMNode.node : DOMNode → NodeInstance
  | DOMNode.mk node _ => node

/-- The child sequence of the root of a subtree. -/
def DOMNode.childNodes : DOMNode → List DOMNode
  | DOMNode.mk _ childNodes => childNodes

mutual
/-- Addresses of all node instances of a subtree, in pre-order. -/
def DOMNode.addresses : DOMNode → List Nat
  | DOMNode.mk node childNodes => node.self :: DOMNode.addressesOfList childNodes
/-- Addresses of all node instances of a sequence of subtrees. -/
def DOMNode.addressesOfList : List DOMNode → List Nat
  | [] => []
  | n :: rest => DOMNode.addresses n ++ DOMNode.addressesOfList rest
end

/-- The id attribute of an element as the table reports it: the stored handle
when `hasAttribute("id")` holds, nothing otherwise. -/
def ElementInstance.idAttribute (self : ElementInstance) : Option JSAtom :=
  if self.m_attributes.hasAttribute "id" then
    some (self.m_attributes.getAttribute "id").1
  else
    none

/-- One element with the subtree below it, the context it lives in, and whether
it is currently connected to the document tree. -/
structure IdWorld where
  element : DOMNode
  ctx : JSContext
  connected : Bool

/-- Whether the document index holds the element of the world under the key. -/
def IdWorld.indexedUnder (w : IdWorld) (key : JSAtom) : Prop :=
  (key, w.element.node.self) ∈ w.ctx.m_elementMapById

/-- The invariant as the claim states it, for the key x: the index holds the
element under x exactly when the element is connected and its id attribute is
set, non-empty and equal to x. -/
def IdWorld.claimedInvariant (w : IdWorld) (x : String) : Prop :=
  w.indexedUnder (some x) ↔
    (w.connected = true ∧ ElementInstance.idAttribute w.element.node = some (some x) ∧ x ≠ "")

/-- A freshly built, disconnected `div` with a text child and an element child
that carries the id "kid"; the index holds an entry for another element. -/
def sampleWorld : IdWorld :=
  { element := DOMNode.mk sampleElement
      [DOMNode.mk { sampleElement with self := 8, nodeType := NodeType.TEXT_NODE,
                                       prototype := HostClass.named "TextNode",
                                       eventTargetId := 4, m_tagName := "" } [],
       DOMNode.mk { sampleElement with self := 10, eventTargetId := 5, m_tagName := "span",
                                       m_attributes := { m_attributes := [("id", some "kid")] } }
         []],
    ctx := sampleContext,
    connected := false }

instance IdWorld.decidableIndexedUnder (w : IdWorld) (key : JSAtom) :
    Decidable (w.indexedUnder key) :=
  inferInstanceAs (Decidable ((key, w.element.node.self) ∈ w.ctx.m_elementMapById))

instance IdWorld.decidableClaimedInvariant (w : IdWorld) (x : String) :
    Decidable (w.claimedInvariant x) :=
  inferInstanceAs (Decidable (w.indexedUnder (some x) ↔
    (w.connected = true ∧ ElementInstance.idAttribute w.element.node = some (some x) ∧ x ≠ "")))

/-! ## Generic property interception on write -/

/-- Modelled from the spec: `setPropertyHandler` of the event target base class
stores the value in the event-handler slot of the key, a storage distinct from
the generic property slots. -/
def ElementInstance.setPropertyHandler (self : ElementInstance) (key : String) (value : JSValue) :
    ElementInstance :=
  { self with propertyEventHandler := unordered_map.assign self.propertyEventHandler key value }

/-- The exotic `set_property` hook. It returns 0 in every case. The value
reference counts (`JS_DupValue`) and the strong reference that the source also
attaches to the instance object under a synthetic key are effects on the engine
heap of values, which the embedding does not track. -/
def ElementInstance.setProperty (ctx : JSContext) (element : ElementInstance) (atom : JSAtom)
    (value : JSValue) : Int × ElementInstance × JSContext :=
  let key := JS_AtomToCString atom
  if String.mk (key.data.take 2) = "on" then
    (0, ElementInstance.setPropertyHandler element key value, ctx)
  else
    let newValue := value
    (0, { element with m_properties := unordered_map.assign element.m_properties atom newValue },
     ctx)

/-! ## Pixel export (`Element::toBlob`) -/

def JS_IsNumber (v : JSValue) : Bool :=
  match v with
  | JSValue.int _ => true
  | _ => false

/-- The number held by a numeric value (`JS_ToFloat64`); the target keeps its
content when the value is not numeric. -/
def JS_ToFloat64 (pres : Int) (v : JSValue) : Int :=
  match v with
  | JSValue.int n => n
  | _ => pres

/-- The native hooks registered by the host that `toBlob` looks at:
`toBlob_registered` tells whether the `toBlob` function pointer is set (not
`nullptr`). -/
structure DartMethodPointer where
  toBlob_registered : Bool
  deriving DecidableEq, Repr

/-- A new deferred result (`JS_NewPromiseCapability`): the promise object and its
resolve and reject functions, three new objects of the engine heap. -/
def JS_NewPromiseCapability (ctx : JSContext) : (JSValue × JSValue × JSValue) × JSContext :=
  ((JSValue.object ctx.heapTop, JSValue.object (ctx.heapTop + 1), JSValue.object (ctx.heapTop + 2)),
   { ctx with heapTop := ctx.heapTop + 3 })

/-- Modelled from the spec: the `toBlob` hook of the native side starts the
asynchronous export for a native id and a pixel ratio and keeps the completion
context as the token of its later callback. The call is logged. -/
def dart_toBlob (ctx : JSContext) (callbackContext : ToBlobPromiseContext) (eventTargetId : Int)
    (devicePixelRatio : Int) : JSContext :=
  { ctx with dartCalls := ctx.dartCalls ++
      [DartCall.toBlob callbackContext eventTargetId devicePixelRatio] }

/-- The script method `toBlob`. The early return of the argument check is the
`none` of `checked`; `some` carries the pixel ratio with which the method goes
on. -/
def Element.toBlob (dartMethod : DartMethodPointer) (ctx : JSContext) (element : ElementInstance)
    (argv : List JSValue) : JSResult × ElementInstance × JSContext :=
  let devicePixelRatio : Int := 1
  let checked : Option Int :=
    match argv with
    | devicePixelRatioValue :: _ =>
      if !JS_IsNumber devicePixelRatioValue then
        none
      else
        some (JS_ToFloat64 devicePixelRatio devicePixelRatioValue)
    | [] => some devicePixelRatio
  match checked with
  | none =>
    (JS_ThrowTypeError "Failed to export blob: parameter 2 (devicePixelRatio) is not an number.",
     element, ctx)
  | some devicePixelRatio =>
    if !dartMethod.toBlob_registered then
      (JS_ThrowTypeError "Failed to export blob: dart method (toBlob) is not registered.",
       element, ctx)
    else
      let ctx1 := flushUICommand ctx
      let ((promise, resolve, reject), ctx2) := JS_NewPromiseCapability ctx1
      let toBlobPromiseContext : ToBlobPromiseContext :=
        { devicePixelRatio := devicePixelRatio, promise := promise, resolve := resolve,
          reject := reject }
      let ctx3 := dart_toBlob ctx2 toBlobPromiseContext element.eventTargetId
        toBlobPromiseContext.devicePixelRatio
      (Except.ok promise, element, ctx3)

/-! ## Completion callback of the pixel export (`blobCallback`) -/

/-- The script value references that the completion callback names: the three
held in the completion context and its own locals. -/
inductive BlobCallbackRef where
  | promise
  | resolve
  | reject
  | arrayBuffer
  | argumentsArray
  | pushMethod
  | blobValue
  | ret
  | errorObject
  | errorMessage
  deriving DecidableEq, Repr

/-- One engine call made by the completion callback, with the references it is
applied to; `result` is the local that receives the returned value, if any. -/
inductive BlobCallbackOp where
  | JS_NewArrayBuffer (result : BlobCallbackRef) (bytes : List Nat)
  | JS_NewArray (result : BlobCallbackRef)
  | JS_GetPropertyStr (result : BlobCallbackRef) (obj : BlobCallbackRef) (name : String)
  | JS_Call (result : Option BlobCallbackRef) (func this : BlobCallbackRef)
      (args : List BlobCallbackRef)
  | JS_CallConstructor (result : BlobCallbackRef) (className : String) (args : List BlobCallbackRef)
  | handleException (value : BlobCallbackRef)
  | JS_NewError (result : BlobCallbackRef)
  | JS_NewString (result : BlobCallbackRef) (text : String)
  | JS_DefinePropertyValueStr (obj : BlobCallbackRef) (name : String) (value : BlobCallbackRef)
  | JS_FreeValue (value : BlobCallbackRef)
  deriving DecidableEq, Repr

/-- The completion callback `blobCallback(callbackContext, contextId, error,
bytes, length)` as the sequence of engine calls it makes, in order. `error` is
`none` for `nullptr`; `bytes` is the buffer of `length` bytes;
`blobValue_isException` is the outcome of `JS_IsException(blobValue)`, that is,
whether the construction of the blob raised an exception. The unused local copy
of the bytes and the diagnostic `printf` calls make no engine call and do not
appear. -/
def blobCallback (blobValue_isException : Bool) (error : Option String) (bytes : List Nat) :
    List BlobCallbackOp :=
  (match error with
   | none =>
     [BlobCallbackOp.JS_NewArrayBuffer BlobCallbackRef.arrayBuffer bytes,
      BlobCallbackOp.JS_NewArray BlobCallbackRef.argumentsArray,
      BlobCallbackOp.JS_GetPropertyStr BlobCallbackRef.pushMethod BlobCallbackRef.argumentsArray
        "push",
      BlobCallbackOp.JS_Call none BlobCallbackRef.pushMethod BlobCallbackRef.argumentsArray
        [BlobCallbackRef.arrayBuffer],
      BlobCallbackOp.JS_CallConstructor BlobCallbackRef.blobValue "Blob"
        [BlobCallbackRef.argumentsArray]]
     ++ (if blobValue_isException then
          [BlobCallbackOp.handleException BlobCallbackRef.blobValue]
         else
          [BlobCallbackOp.JS_Call (some BlobCallbackRef.ret) BlobCallbackRef.resolve
             BlobCallbackRef.promise [BlobCallbackRef.blobValue],
           BlobCallbackOp.JS_FreeValue BlobCallbackRef.ret])
     ++ [BlobCallbackOp.JS_FreeValue BlobCallbackRef.pushMethod,
         BlobCallbackOp.JS_FreeValue BlobCallbackRef.blobValue,
         BlobCallbackOp.JS_FreeValue BlobCallbackRef.argumentsArray,
         BlobCallbackOp.JS_FreeValue BlobCallbackRef.arrayBuffer]
   | some message =>
     [BlobCallbackOp.JS_NewError BlobCallbackRef.errorObject,
      BlobCallbackOp.JS_NewString BlobCallbackRef.errorMessage message,
      BlobCallbackOp.JS_DefinePropertyValueStr BlobCallbackRef.errorObject "message"
        BlobCallbackRef.errorMessage,
      BlobCallbackOp.JS_Call none BlobCallbackRef.reject BlobCallbackRef.promise
        [BlobCallbackRef.errorObject],
      BlobCallbackOp.JS_FreeValue BlobCallbackRef.errorObject,
      BlobCallbackOp.JS_FreeValue BlobCallbackRef.errorMessage])
  ++ [BlobCallbackOp.JS_FreeValue BlobCallbackRef.resolve,
      BlobCallbackOp.JS_FreeValue BlobCallbackRef.reject]

/-- The calls of a trace that settle the deferred result: the calls of the
resolve function and of the reject function of the completion context. -/
def settleCalls (trace : List BlobCallbackOp) : List BlobCallbackOp :=
  trace.filter (fun op =>
    match op with
    | BlobCallbackOp.JS_Call _ func _ _ =>
      decide (func = BlobCallbackRef.resolve ∨ func = BlobCallbackRef.reject)
    | _ => false)

/-- How many times a trace releases a reference with `JS_FreeValue`. -/
def releaseCount (trace : List BlobCallbackOp) (value : BlobCallbackRef) : Nat :=
  trace.count (BlobCallbackOp.JS_FreeValue value)

/-! ## Copy and destruction of the attribute table -/

/-- The member function `copyWith(attributes)`: every entry of the source is
written into the receiver with a retained handle. -/
def ElementAttributes.copyWith (ctx : JSContext) (self : ElementAttributes)
    (attributes : ElementAttributes) : ElementAttributes × JSContext :=
  attributes.m_attributes.foldl
    (fun (acc : ElementAttributes × JSContext) attr =>
      let r := JS_DupAtom acc.2 attr.2
      ({ m_attributes := unordered_map.assign acc.1.m_attributes attr.1 r.1 }, r.2))
    (self, ctx)

/-- The destructor `~ElementAttributes()`: one release per entry. -/
def ElementAttributes.destructor (ctx : JSContext) (self : ElementAttributes) : JSContext :=
  self.m_attributes.foldl (fun (acc : JSContext) attr => JS_FreeAtom acc attr.2) ctx

/-- A table with two names that share one handle and a third name. -/
def sampleTable : ElementAttributes :=
  { m_attributes := [("title", some "t"), ("alt", some "t"), ("id", some "a")] }

/-- A context in which the handles of the sample table are counted once per
entry that holds them. -/
def sampleTableContext : JSContext :=
  { emptyContext with
    atomRefs := fun a => if a = some "t" then 2 else if a = some "a" then 1 else 0 }

/-! ## The `children` accessor -/

/-- The script object of a node instance (`instanceObject`), identified with the
address of the instance. -/
def NodeInstance.instanceObject (node : NodeInstance) : JSValue :=
  JSValue.object node.self

/-- A script array: the array object and the values it holds, in order. -/
structure JSArray where
  object : JSValue
  elements : List JSValue
  deriving DecidableEq, Repr

/-- A new empty array (`JS_NewArray`): a new object of the engine heap. -/
def JS_NewArray (ctx : JSContext) : JSArray × JSContext :=
  ({ object := JSValue.object ctx.heapTop, elements := [] },
   { ctx with heapTop := ctx.heapTop + 1 })

/-- The call of the `push` method of an array with one argument. -/
def JSArray.push (array : JSArray) (value : JSValue) : JSArray :=
  { array with elements := array.elements ++ [value] }

/-- The getter of `children`. The receiver is the root of `element`; the loop
over `childNodes` is the fold. -/
def Element.childrenPropertyDescriptor.getter (ctx : JSContext) (element : DOMNode)
    (_argv : List JSValue) : JSArray × DOMNode × JSContext :=
  let (array, ctx1) := JS_NewArray ctx
  let array1 := element.childNodes.foldl
    (fun (acc : JSArray) childNode =>
      if childNode.node.nodeType = NodeType.ELEMENT_NODE then
        acc.push (NodeInstance.instanceObject childNode.node)
      else
        acc)
    array
  (array1, element, ctx1)

def Element.childrenPropertyDescriptor.setter (ctx : JSContext) (element : DOMNode)
    (_argv : List JSValue) : JSResult × DOMNode × JSContext :=
  (Except.ok JS_NULL, element, ctx)

/-! ## The id-rename sequence as a list of index calls -/

mutual
/-- The nodes of a subtree in pre-order: the node, then the subtrees of its
children in document order. -/
def DOMNode.preorder : DOMNode → List NodeInstance
  | DOMNode.mk node childNodes => node :: DOMNode.preorderOfList childNodes
/-- The nodes of a sequence of subtrees, first subtree first. -/
def DOMNode.preorderOfList : List DOMNode → List NodeInstance
  | [] => []
  | n :: rest => DOMNode.preorder n ++ DOMNode.preorderOfList rest
end

namespace unordered_map

variable {κ ν : Type} [DecidableEq κ]

theorem lookup_cons_eq (m : List (κ × ν)) (k k1 : κ) (v1 : ν) :
    List.lookup k ((k1, v1) :: m) = if k = k1 then some v1 else List.lookup k m := by
  by_cases h : k = k1
  · subst h; simp [List.lookup]
  · have : (k == k1) = false := by simpa using h
    simp [List.lookup, this, h]

theorem lookup_assign_self (m : List (κ × ν)) (k : κ) (v : ν) :
    (assign m k v).lookup k = some v := by
  induction m with
  | nil => simp [assign, lookup_cons_eq]
  | cons p rest ih =>
    obtain ⟨k1, v1⟩ := p
    by_cases h : k1 = k
    · simp [assign, h, lookup_cons_eq]
    · have h2 : ¬ k = k1 := fun e => h e.symm
      simp [assign, h, lookup_cons_eq, h2, ih]

theorem lookup_assign_of_ne (m : List (κ × ν)) (k k2 : κ) (v : ν) (hne : k2 ≠ k) :
    (assign m k v).lookup k2 = m.lookup k2 := by
  induction m with
  | nil => simp [assign, lookup_cons_eq, hne]
  | cons p rest ih =>
    obtain ⟨k1, v1⟩ := p
    by_cases h : k1 = k
    · subst h
      simp [assign, lookup_cons_eq, hne]
    · simp [assign, h, lookup_cons_eq, ih]

theorem lookup_erase_self (m : List (κ × ν)) (k : κ) : (erase m k).lookup k = none := by
  induction m with
  | nil => simp [erase]
  | cons p rest ih =>
    obtain ⟨k1, v1⟩ := p
    by_cases h : k1 = k
    · simpa [erase, h] using ih
    · have h2 : ¬ k = k1 := fun e => h e.symm
      simpa [erase, h, lookup_cons_eq, h2] using ih

theorem lookup_erase_of_ne (m : List (κ × ν)) (k k2 : κ) (hne : k2 ≠ k) :
    (erase m k).lookup k2 = m.lookup k2 := by
  induction m with
  | nil => simp [erase]
  | cons p rest ih =>
    obtain ⟨k1, v1⟩ := p
    by_cases h : k1 = k
    · subst h
      simpa [erase, lookup_cons_eq, hne] using ih
    · by_cases h3 : k2 = k1
      · simp [erase, h, lookup_cons_eq, h3]
      · simpa [erase, h, lookup_cons_eq, h3] using ih

theorem count_pos_iff (m : List (κ × ν)) (k : κ) :
    count m k > 0 ↔ (m.lookup k).isSome = true := by
  unfold count
  split <;> simp_all

theorem subscript_of_lookup (m : List (κ × ν)) (k : κ) (d v : ν) (h : m.lookup k = some v) :
    subscript m k d = (v, m) := by
  simp [subscript, h]

end unordered_map

/-! ## Lemmas on the context and the attribute table -/

@[simp] theorem JS_FreeAtom_commands (ctx : JSContext) (v : JSAtom) :
    (JS_FreeAtom ctx v).commands = ctx.commands := by
  cases v <;> rfl

@[simp] theorem JS_FreeAtom_index (ctx : JSContext) (v : JSAtom) :
    (JS_FreeAtom ctx v).m_elementMapById = ctx.m_elementMapById := by
  cases v <;> rfl

@[simp] theorem JS_FreeAtom_dartCalls (ctx : JSContext) (v : JSAtom) :
    (JS_FreeAtom ctx v).dartCalls = ctx.dartCalls := by
  cases v <;> rfl

@[simp] theorem JS_ValueToAtom_atom (ctx : JSContext) (v : JSValue) :
    (JS_ValueToAtom ctx v).1 = some (JS_ToCString v) := rfl

@[simp] theorem JS_ValueToAtom_commands (ctx : JSContext) (v : JSValue) :
    (JS_ValueToAtom ctx v).2.commands = ctx.commands := rfl

@[simp] theorem JS_ValueToAtom_dartCalls (ctx : JSContext) (v : JSValue) :
    (JS_ValueToAtom ctx v).2.dartCalls = ctx.dartCalls := rfl

@[simp] theorem JS_ToCString_JS_ToString (v : JSValue) :
    JS_ToCString (JS_ToString v) = JS_ToCString v := rfl

@[simp] theorem addCommand_commands (ctx : JSContext) (item : UICommandItem) :
    (addCommand ctx item).commands = ctx.commands ++ [item] := rfl

@[simp] theorem addCommand_index (ctx : JSContext) (item : UICommandItem) :
    (addCommand ctx item).m_elementMapById = ctx.m_elementMapById := rfl

@[simp] theorem addCommand_dartCalls (ctx : JSContext) (item : UICommandItem) :
    (addCommand ctx item).dartCalls = ctx.dartCalls := rfl

@[simp] theorem addElementById_commands (ctx : JSContext) (id : JSAtom) (e : Nat) :
    (addElementById ctx id e).commands = ctx.commands := by
  unfold addElementById; split <;> rfl

@[simp] theorem removeElementById_commands (ctx : JSContext) (id : JSAtom) (e : Nat) :
    (removeElementById ctx id e).commands = ctx.commands := rfl

@[simp] theorem addElementById_dartCalls (ctx : JSContext) (id : JSAtom) (e : Nat) :
    (addElementById ctx id e).dartCalls = ctx.dartCalls := by
  unfold addElementById; split <;> rfl

@[simp] theorem removeElementById_dartCalls (ctx : JSContext) (id : JSAtom) (e : Nat) :
    (removeElementById ctx id e).dartCalls = ctx.dartCalls := rfl

@[simp] theorem _beforeUpdateId_commands (ctx : JSContext) (self : ElementInstance) (o n : JSAtom) :
    (ElementInstance._beforeUpdateId ctx self o n).commands = ctx.commands := by
  unfold ElementInstance._beforeUpdateId
  split_ifs <;> simp

@[simp] theorem _didModifyAttribute_commands (ctx : JSContext) (self : ElementInstance)
    (name : String) (o n : JSAtom) :
    (ElementInstance._didModifyAttribute ctx self name o n).commands = ctx.commands := by
  unfold ElementInstance._didModifyAttribute
  split_ifs <;> simp

@[simp] theorem _beforeUpdateId_dartCalls (ctx : JSContext) (self : ElementInstance) (o n : JSAtom) :
    (ElementInstance._beforeUpdateId ctx self o n).dartCalls = ctx.dartCalls := by
  unfold ElementInstance._beforeUpdateId
  split_ifs <;> simp

@[simp] theorem _didModifyAttribute_dartCalls (ctx : JSContext) (self : ElementInstance)
    (name : String) (o n : JSAtom) :
    (ElementInstance._didModifyAttribute ctx self name o n).dartCalls = ctx.dartCalls := by
  unfold ElementInstance._didModifyAttribute
  split_ifs <;> simp

namespace ElementAttributes

theorem hasAttribute_eq (self : ElementAttributes) (name : String) :
    self.hasAttribute name = (!isNumberIndex name && (self.m_attributes.lookup name).isSome) := by
  unfold hasAttribute
  by_cases h : isNumberIndex name = true
  · simp [h]
  · simp only [Bool.not_eq_true] at h
    cases hl : (self.m_attributes.lookup name).isSome <;> simp [h, unordered_map.count, hl]

theorem hasAttribute_of_isNumberIndex (self : ElementAttributes) (name : String)
    (h : isNumberIndex name = true) : self.hasAttribute name = false := by
  simp [hasAttribute_eq, h]

/-- A present name is read without touching the table. -/
theorem getAttribute_of_hasAttribute (self : ElementAttributes) (name : String)
    (h : self.hasAttribute name = true) :
    ∃ v, self.m_attributes.lookup name = some v ∧ self.getAttribute name = (v, self) := by
  rw [hasAttribute_eq] at h
  simp only [Bool.and_eq_true, Bool.not_eq_true', Option.isSome_iff_exists] at h
  obtain ⟨hn, v, hv⟩ := h
  refine ⟨v, hv, ?_⟩
  simp [getAttribute, hn, unordered_map.subscript, hv]

theorem setAttribute_of_not_isNumberIndex (self : ElementAttributes) (name : String) (atom : JSAtom)
    (h : isNumberIndex name = false) :
    self.setAttribute name atom =
      (Except.ok JS_NULL, { m_attributes := unordered_map.assign self.m_attributes name atom }) := by
  simp [setAttribute, h]

theorem setAttribute_of_isNumberIndex (self : ElementAttributes) (name : String) (atom : JSAtom)
    (h : isNumberIndex name = true) :
    ∃ msg, self.setAttribute name atom = (JS_ThrowTypeError msg, self) := by
  refine ⟨"Failed to execute 'setAttribute' on 'Element': '" ++ name
    ++ "' is not a valid attribute name.", ?_⟩
  simp [setAttribute, h]

end ElementAttributes

/-! ## The attribute entry points in closed form -/

@[simp] theorem JS_ToCString_string (s : String) : JS_ToCString (JSValue.string s) = s := rfl

@[simp] theorem JS_IsString_string (s : String) : JS_IsString (JSValue.string s) = true := rfl

/-- A successful `Element::setAttribute(name, v)` in closed form: the table gets
the lowercased name bound to the atom of the text of `v`, the attribute-change
notification runs with the previous handle (`JS_ATOM_NULL` when the name was
new), the previous handle is released and one command is queued. -/
theorem Element.setAttribute_string (ctx : JSContext) (e : ElementInstance) (name : String)
    (v : JSValue) (hnum : isNumberIndex (tolower name) = false) :
    Element.setAttribute ctx e [JSValue.string name, v] =
      (Except.ok JS_NULL,
       { e with m_attributes :=
          { m_attributes := unordered_map.assign e.m_attributes.m_attributes (tolower name)
              (some (JS_ToCString v)) } },
       addCommand
        (JS_FreeAtom
          (ElementInstance._didModifyAttribute (JS_ValueToAtom ctx (JS_ToString v)).2
            { e with m_attributes :=
              { m_attributes := unordered_map.assign e.m_attributes.m_attributes (tolower name)
                  (some (JS_ToCString v)) } }
            (tolower name)
            ((e.m_attributes.m_attributes.lookup (tolower name)).getD JS_ATOM_NULL)
            (some (JS_ToCString v)))
          ((e.m_attributes.m_attributes.lookup (tolower name)).getD JS_ATOM_NULL))
        { id := e.eventTargetId, type := UICommand.setProperty,
          args_01 := some (tolower name), args_02 := some (JS_ToCString v), nativePtr := none }) := by
  by_cases hhas : e.m_attributes.hasAttribute (tolower name) = true
  · obtain ⟨v0, hv0, hget⟩ := ElementAttributes.getAttribute_of_hasAttribute _ _ hhas
    simp [Element.setAttribute, jsValueToStdString, hhas, hget,
      ElementAttributes.setAttribute_of_not_isNumberIndex _ _ _ hnum, hv0, stringToNativeString,
      jsValueToNativeString]
  · simp only [Bool.not_eq_true] at hhas
    have hl : e.m_attributes.m_attributes.lookup (tolower name) = none := by
      rw [ElementAttributes.hasAttribute_eq] at hhas
      simpa [hnum] using hhas
    simp [Element.setAttribute, jsValueToStdString, hhas,
      ElementAttributes.setAttribute_of_not_isNumberIndex _ _ _ hnum, hl, stringToNativeString,
      jsValueToNativeString, JS_FreeAtom, JS_ATOM_NULL]

/-- The read `Element::getAttribute(name)` with one string argument in closed
form: the name is looked up as given, and neither the element nor the context
changes. -/
theorem Element.getAttribute_string (ctx : JSContext) (e : ElementInstance) (name : String) :
    Element.getAttribute ctx e [JSValue.string name] =
      (Except.ok (if e.m_attributes.hasAttribute name = true then
          JS_AtomToValue ((e.m_attributes.m_attributes.lookup name).getD JS_ATOM_NULL)
        else JS_NULL), e, ctx) := by
  by_cases hhas : e.m_attributes.hasAttribute name = true
  · obtain ⟨v0, hv0, hget⟩ := ElementAttributes.getAttribute_of_hasAttribute _ _ hhas
    simp [Element.getAttribute, jsValueToStdString, hhas, hget, hv0]
  · simp only [Bool.not_eq_true] at hhas
    simp [Element.getAttribute, jsValueToStdString, hhas]

/-! ## C1: write, overwrite, read -/

/-- C1, as stated, fails on the code. With the numeric-looking name "1" both
writes are rejected and the read returns null, not the second value; with the
name "title" and the integer 5 as second value the read returns the string "5",
not the integer that was passed. -/
theorem C1_setAttribute_twice_getAttribute_counterexample :
    ((setSetGet emptyContext sampleElement "1" (JSValue.string "x") (JSValue.string "y")).2.2.1
        = Except.ok JSValue.null
      ∧ (setSetGet emptyContext sampleElement "1" (JSValue.string "x") (JSValue.string "y")).2.2.1
        ≠ Except.ok (JSValue.string "y"))
    ∧ ((setSetGet emptyContext sampleElement "title" (JSValue.string "x") (JSValue.int 5)).2.2.1
        = Except.ok (JSValue.string "5")
      ∧ (setSetGet emptyContext sampleElement "title" (JSValue.string "x") (JSValue.int 5)).2.2.1
        ≠ Except.ok (JSValue.int 5)) := by
  decide

/-- C1 (amended): for every element, every name that is not numeric-looking and
that lowercasing leaves unchanged, and all values v1 and v2, the two calls
`setAttribute(name, v1)` and `setAttribute(name, v2)` both succeed and the
following `getAttribute(name)` returns the string form of v2, which is v2
itself when v2 is a string. -/
theorem C1_setAttribute_twice_getAttribute (ctx : JSContext) (e : ElementInstance)
    (name : String) (v1 v2 : JSValue)
    (hnum : isNumberIndex name = false) (hlow : tolower name = name) :
    (setSetGet ctx e name v1 v2).1 = Except.ok JS_NULL
    ∧ (setSetGet ctx e name v1 v2).2.1 = Except.ok JS_NULL
    ∧ (setSetGet ctx e name v1 v2).2.2.1 = Except.ok (JS_ToString v2)
    ∧ (JS_IsString v2 = true → (setSetGet ctx e name v1 v2).2.2.1 = Except.ok v2) := by
  have hnum2 : isNumberIndex (tolower name) = false := by rw [hlow]; exact hnum
  have hget : (setSetGet ctx e name v1 v2).2.2.1 = Except.ok (JS_ToString v2) := by
    simp only [setSetGet]
    rw [Element.setAttribute_string ctx e name v1 hnum2]
    simp only []
    rw [Element.setAttribute_string _ _ name v2 hnum2, Element.getAttribute_string]
    simp only [hlow, ElementAttributes.hasAttribute_eq, hnum, unordered_map.lookup_assign_self]
    simp [JS_AtomToValue, JS_ToString]
  refine ⟨?_, ?_, hget, ?_⟩
  · simp only [setSetGet]
    rw [Element.setAttribute_string ctx e name v1 hnum2]
  · simp only [setSetGet]
    rw [Element.setAttribute_string ctx e name v1 hnum2]
    simp only []
    rw [Element.setAttribute_string _ _ name v2 hnum2]
  · intro hs
    rw [hget]
    cases v2 <;> simp_all [JS_IsString, JS_ToString, JS_ToCString]

/-- C1 witness: name "title" on a fresh element, first value "x", second value
the integer 5. -/
theorem C1_setAttribute_twice_getAttribute_witness :
    isNumberIndex "title" = false ∧ tolower "title" = "title"
    ∧ (setSetGet emptyContext sampleElement "title" (JSValue.string "x") (JSValue.int 5)).2.2.1
        = Except.ok (JS_ToString (JSValue.int 5)) :=
  ⟨by decide, by decide,
   (C1_setAttribute_twice_getAttribute emptyContext sampleElement "title" (JSValue.string "x")
      (JSValue.int 5) (by decide) (by decide)).2.2.1⟩

/-! ## Numeric-looking names -/

theorem isNumberIndex_cons (name : String) (f : Char) (rest : List Char)
    (h : name.data = f :: rest) :
    isNumberIndex name = (decide (48 ≤ f.toNat) && decide (f.toNat ≤ 57)) := by
  unfold isNumberIndex
  rw [h]
  rfl

theorem toLower_of_toNat_le (c : Char) (h : c.toNat ≤ 57) : c.toLower = c := by
  unfold Char.toLower
  simp only []
  rw [if_neg]
  omega

theorem tolower_data (name : String) : (tolower name).data = name.data.map Char.toLower := rfl

/-- A name that starts with an ASCII digit is numeric-looking, before and after
lowercasing. -/
theorem isNumberIndex_of_digit (n : String) (c : Char) (rest : List Char)
    (hn : n.data = c :: rest) (hc : c.isDigit = true) :
    isNumberIndex n = true ∧ isNumberIndex (tolower n) = true := by
  have hc2 : 48 ≤ c.toNat ∧ c.toNat ≤ 57 := by
    simp [Char.isDigit] at hc
    exact hc
  constructor
  · rw [isNumberIndex_cons n c rest hn]
    simp [hc2.1, hc2.2]
  · have hd : (tolower n).data = c :: rest.map Char.toLower := by
      rw [tolower_data, hn, List.map_cons, toLower_of_toNat_le c hc2.2]
    rw [isNumberIndex_cons _ c _ hd]
    simp [hc2.1, hc2.2]

/-- A rejected `Element::setAttribute(name, v)`: the table refuses the
numeric-looking name; the element is returned as it was and the context has
only retained the atom of the value. -/
theorem Element.setAttribute_numeric (ctx : JSContext) (e : ElementInstance) (name : String)
    (v : JSValue) (hnum : isNumberIndex (tolower name) = true) :
    Element.setAttribute ctx e [JSValue.string name, v] =
      (JS_ThrowTypeError ("Failed to execute 'setAttribute' on 'Element': '" ++ tolower name
          ++ "' is not a valid attribute name."),
       e, (JS_ValueToAtom ctx (JS_ToString v)).2) := by
  have hhas := ElementAttributes.hasAttribute_of_isNumberIndex e.m_attributes _ hnum
  simp [Element.setAttribute, jsValueToStdString, hhas, ElementAttributes.setAttribute, hnum,
    JS_ThrowTypeError]

/-! ## C3: numeric-looking names are rejected -/

/-- C3: for every name n whose first character is an ASCII digit and every
value v, `Element::setAttribute(n, v)` throws a TypeError and leaves the element
as it was; `hasAttribute(n)` is false before and after the call, the table read
of n gives `JS_ATOM_NULL`, and `Element::getAttribute(n)` returns null. -/
theorem C3_numeric_name_rejected (ctx : JSContext) (e : ElementInstance) (n : String)
    (v : JSValue) (c : Char) (rest : List Char)
    (hn : n.data = c :: rest) (hc : c.isDigit = true) :
    (∃ msg, (Element.setAttribute ctx e [JSValue.string n, v]).1
        = Except.error { kind := JSErrorKind.TypeError, message := msg })
    ∧ e.m_attributes.hasAttribute n = false
    ∧ (Element.setAttribute ctx e [JSValue.string n, v]).2.1 = e
    ∧ (Element.setAttribute ctx e [JSValue.string n, v]).2.1.m_attributes.hasAttribute n = false
    ∧ ((Element.setAttribute ctx e [JSValue.string n, v]).2.1.m_attributes.getAttribute n).1
        = JS_ATOM_NULL
    ∧ (Element.getAttribute (Element.setAttribute ctx e [JSValue.string n, v]).2.2
        (Element.setAttribute ctx e [JSValue.string n, v]).2.1 [JSValue.string n]).1
        = Except.ok JS_NULL := by
  obtain ⟨h1, h2⟩ := isNumberIndex_of_digit n c rest hn hc
  rw [Element.setAttribute_numeric ctx e n v h2]
  refine ⟨⟨_, rfl⟩, ?_, rfl, ?_, ?_, ?_⟩
  · exact ElementAttributes.hasAttribute_of_isNumberIndex _ _ h1
  · exact ElementAttributes.hasAttribute_of_isNumberIndex _ _ h1
  · simp [ElementAttributes.getAttribute, h1]
  · rw [Element.getAttribute_string]
    simp [ElementAttributes.hasAttribute_of_isNumberIndex _ _ h1]

/-- C3 witness: the name "1a" with value "v" on an element that already has a
`title` attribute. -/
theorem C3_numeric_name_rejected_witness :
    "1a".data = '1' :: ['a'] ∧ Char.isDigit '1' = true
    ∧ (Element.setAttribute emptyContext
        { sampleElement with m_attributes := { m_attributes := [("title", some "t")] } }
        [JSValue.string "1a", JSValue.string "v"]).2.1
      = { sampleElement with m_attributes := { m_attributes := [("title", some "t")] } } :=
  ⟨by decide, by decide,
   (C3_numeric_name_rejected emptyContext
      { sampleElement with m_attributes := { m_attributes := [("title", some "t")] } }
      "1a" (JSValue.string "v") '1' ['a'] (by decide) (by decide)).2.2.1⟩

/-! ## C4: when `Element::setAttribute` fails -/

/-- A call whose first argument is not a string is rejected. -/
theorem Element.setAttribute_not_string (ctx : JSContext) (e : ElementInstance)
    (nameValue attributeValue : JSValue) (h : JS_IsString nameValue = false) :
    Element.setAttribute ctx e [nameValue, attributeValue] =
      (JS_ThrowTypeError "Failed to execute 'setAttribute' on 'Element': name attribute is not valid.",
       e, (JS_ValueToAtom ctx (JS_ToString attributeValue)).2) := by
  simp [Element.setAttribute, h]

/-- A call with an argument count other than two is rejected at once. -/
theorem Element.setAttribute_arity (ctx : JSContext) (e : ElementInstance) (argv : List JSValue)
    (h : argv.length ≠ 2) :
    Element.setAttribute ctx e argv =
      (JS_ThrowTypeError
        ("Failed to execute 'setAttribute' on 'Element': 2 arguments required, but only "
          ++ toString argv.length ++ " present"), e, ctx) := by
  match argv, h with
  | [], _ => rfl
  | [_], _ => rfl
  | _ :: _ :: _ :: _, _ => rfl
  | [_, _], h => exact absurd rfl h

theorem JS_IsString_iff (v : JSValue) : JS_IsString v = true ↔ ∃ s, v = JSValue.string s := by
  cases v <;> simp [JS_IsString]

/-- C4: `Element::setAttribute` throws exactly when the argument count is not 2,
or the name argument is not a string, or the lowercased name is numeric-looking;
what it throws is a TypeError, and whenever it throws the element (with its
attribute table), the document id index and the command queue are as before the
call. -/
theorem C4_setAttribute_failure (ctx : JSContext) (e : ElementInstance) (argv : List JSValue) :
    ((∃ ex, (Element.setAttribute ctx e argv).1 = Except.error ex) ↔
      (argv.length ≠ 2 ∨ ∃ nameValue attributeValue, argv = [nameValue, attributeValue] ∧
        (JS_IsString nameValue = false
          ∨ isNumberIndex (tolower (jsValueToStdString nameValue)) = true)))
    ∧ (∀ ex, (Element.setAttribute ctx e argv).1 = Except.error ex →
        ex.kind = JSErrorKind.TypeError
        ∧ (Element.setAttribute ctx e argv).2.1 = e
        ∧ (Element.setAttribute ctx e argv).2.2.m_elementMapById = ctx.m_elementMapById
        ∧ (Element.setAttribute ctx e argv).2.2.commands = ctx.commands) := by
  by_cases hlen : argv.length = 2
  · obtain ⟨a, b, rfl⟩ : ∃ a b, argv = [a, b] := by
      match argv, hlen with
      | [a, b], _ => exact ⟨a, b, rfl⟩
    by_cases hs : JS_IsString a = true
    · obtain ⟨name, rfl⟩ := (JS_IsString_iff a).1 hs
      by_cases hnum : isNumberIndex (tolower name) = true
      · rw [Element.setAttribute_numeric ctx e name b hnum]
        refine ⟨⟨fun _ => Or.inr ⟨_, _, rfl, Or.inr ?_⟩, fun _ => ⟨_, rfl⟩⟩, ?_⟩
        · simpa [jsValueToStdString] using hnum
        · intro ex hex
          simp only [JS_ThrowTypeError, Except.error.injEq] at hex
          subst hex
          exact ⟨rfl, rfl, rfl, rfl⟩
      · simp only [Bool.not_eq_true] at hnum
        rw [Element.setAttribute_string ctx e name b hnum]
        refine ⟨⟨fun h => ?_, fun h => ?_⟩, ?_⟩
        · obtain ⟨ex, hex⟩ := h
          cases hex
        · rcases h with h | ⟨a2, b2, hab, h | h⟩
          · exact absurd rfl h
          · simp only [List.cons.injEq, and_true] at hab
            obtain ⟨rfl, _⟩ := hab
            simp [JS_IsString] at h
          · simp only [List.cons.injEq, and_true] at hab
            obtain ⟨rfl, _⟩ := hab
            simp [jsValueToStdString, hnum] at h
        · intro ex hex
          cases hex
    · simp only [Bool.not_eq_true] at hs
      rw [Element.setAttribute_not_string ctx e a b hs]
      refine ⟨⟨fun _ => Or.inr ⟨_, _, rfl, Or.inl hs⟩, fun _ => ⟨_, rfl⟩⟩, ?_⟩
      intro ex hex
      simp only [JS_ThrowTypeError, Except.error.injEq] at hex
      subst hex
      exact ⟨rfl, rfl, rfl, rfl⟩
  · rw [Element.setAttribute_arity ctx e argv hlen]
    refine ⟨⟨fun _ => Or.inl hlen, fun _ => ⟨_, rfl⟩⟩, ?_⟩
    intro ex hex
    simp only [JS_ThrowTypeError, Except.error.injEq] at hex
    subst hex
    exact ⟨rfl, rfl, rfl, rfl⟩

/-- C4 witness: `setAttribute("x")` with a single argument on an element with a
`title` attribute, a non-empty index and a non-empty queue. -/
theorem C4_setAttribute_failure_witness :
    (Element.setAttribute sampleContext sampleElementWithTitle [JSValue.string "x"]).1
      = JS_ThrowTypeError
          "Failed to execute 'setAttribute' on 'Element': 2 arguments required, but only 1 present"
    ∧ JSErrorKind.TypeError = JSErrorKind.TypeError
    ∧ (Element.setAttribute sampleContext sampleElementWithTitle [JSValue.string "x"]).2.1
      = sampleElementWithTitle
    ∧ (Element.setAttribute sampleContext sampleElementWithTitle
        [JSValue.string "x"]).2.2.m_elementMapById = sampleContext.m_elementMapById
    ∧ (Element.setAttribute sampleContext sampleElementWithTitle
        [JSValue.string "x"]).2.2.commands = sampleContext.commands :=
  ⟨by decide,
   (C4_setAttribute_failure sampleContext sampleElementWithTitle [JSValue.string "x"]).2
      (JSException.mk JSErrorKind.TypeError
        "Failed to execute 'setAttribute' on 'Element': 2 arguments required, but only 1 present")
      (by decide)⟩

/-! ## C5: one `set-property` record per successful write -/

/-- C5: every successful `Element::setAttribute` call was made with a string
name and a value, and it appends exactly one record at the end of the command
queue, leaving the earlier records as they were: opcode set-property, target
the native id of the element, first argument the lowercased name, second
argument the string form of the value. Nothing in the statement depends on
whether the name was already present. -/
theorem C5_setAttribute_queues_one_command (ctx : JSContext) (e : ElementInstance)
    (argv : List JSValue) (r : JSValue)
    (hok : (Element.setAttribute ctx e argv).1 = Except.ok r) :
    ∃ name v, argv = [JSValue.string name, v] ∧
      (Element.setAttribute ctx e argv).2.2.commands = ctx.commands ++
        [{ id := e.eventTargetId, type := UICommand.setProperty,
           args_01 := some (tolower name), args_02 := some (JS_ToCString v),
           nativePtr := none }] := by
  by_cases hlen : argv.length = 2
  · obtain ⟨a, b, rfl⟩ : ∃ a b, argv = [a, b] := by
      match argv, hlen with
      | [a, b], _ => exact ⟨a, b, rfl⟩
    by_cases hs : JS_IsString a = true
    · obtain ⟨name, rfl⟩ := (JS_IsString_iff a).1 hs
      by_cases hnum : isNumberIndex (tolower name) = true
      · rw [Element.setAttribute_numeric ctx e name b hnum] at hok
        cases hok
      · simp only [Bool.not_eq_true] at hnum
        refine ⟨name, b, rfl, ?_⟩
        rw [Element.setAttribute_string ctx e name b hnum]
        simp
    · simp only [Bool.not_eq_true] at hs
      rw [Element.setAttribute_not_string ctx e a b hs] at hok
      cases hok
  · rw [Element.setAttribute_arity ctx e argv hlen] at hok
    cases hok

/-- C5 witness: `setAttribute("TITLE", 5)` overwrites the `title` attribute of
the sample element and queues one record after the one already there. -/
theorem C5_setAttribute_queues_one_command_witness :
    (Element.setAttribute sampleContext sampleElementWithTitle
        [JSValue.string "TITLE", JSValue.int 5]).1 = Except.ok JS_NULL
    ∧ ∃ name v, [JSValue.string "TITLE", JSValue.int 5] = [JSValue.string name, v] ∧
      (Element.setAttribute sampleContext sampleElementWithTitle
          [JSValue.string "TITLE", JSValue.int 5]).2.2.commands = sampleContext.commands ++
        [{ id := sampleElementWithTitle.eventTargetId, type := UICommand.setProperty,
           args_01 := some (tolower name), args_02 := some (JS_ToCString v),
           nativePtr := none }] :=
  ⟨by decide,
   C5_setAttribute_queues_one_command sampleContext sampleElementWithTitle
     [JSValue.string "TITLE", JSValue.int 5] JS_NULL (by decide)⟩

/-! ## C6: `Element::removeAttribute` -/

theorem addElementById_index (ctx : JSContext) (id : JSAtom) (e : Nat) :
    (addElementById ctx id e).m_elementMapById =
      if (id, e) ∈ ctx.m_elementMapById then ctx.m_elementMapById
      else ctx.m_elementMapById ++ [(id, e)] := by
  unfold addElementById
  split <;> rfl

theorem removeElementById_index (ctx : JSContext) (id : JSAtom) (e : Nat) :
    (removeElementById ctx id e).m_elementMapById =
      ctx.m_elementMapById.filter (fun p => decide (p ≠ (id, e))) := rfl

/-- The index left by the id update depends on the context only through its
index. -/
theorem _beforeUpdateId_index_congr (ctx ctx2 : JSContext) (self : ElementInstance) (o n : JSAtom)
    (h : ctx.m_elementMapById = ctx2.m_elementMapById) :
    (ElementInstance._beforeUpdateId ctx self o n).m_elementMapById =
      (ElementInstance._beforeUpdateId ctx2 self o n).m_elementMapById := by
  unfold ElementInstance._beforeUpdateId
  split_ifs <;>
    simp only [addElementById_index, removeElementById_index, h]

theorem _didModifyAttribute_index_congr (ctx ctx2 : JSContext) (self : ElementInstance)
    (name : String) (o n : JSAtom) (h : ctx.m_elementMapById = ctx2.m_elementMapById) :
    (ElementInstance._didModifyAttribute ctx self name o n).m_elementMapById =
      (ElementInstance._didModifyAttribute ctx2 self name o n).m_elementMapById := by
  unfold ElementInstance._didModifyAttribute
  split_ifs
  · exact _beforeUpdateId_index_congr ctx ctx2 self o n h
  · exact h

/-- The call `Element::removeAttribute(name)` on a present name in closed form. -/
theorem Element.removeAttribute_present (ctx : JSContext) (e : ElementInstance) (name : String)
    (hhas : e.m_attributes.hasAttribute name = true) :
    Element.removeAttribute ctx e [JSValue.string name] =
      (Except.ok JS_NULL,
       { e with m_attributes :=
          { m_attributes := unordered_map.erase e.m_attributes.m_attributes name } },
       addCommand
        (ElementInstance._didModifyAttribute
          (JS_FreeAtom ctx ((e.m_attributes.m_attributes.lookup name).getD JS_ATOM_NULL))
          { e with m_attributes :=
            { m_attributes := unordered_map.erase e.m_attributes.m_attributes name } }
          name ((e.m_attributes.m_attributes.lookup name).getD JS_ATOM_NULL) JS_ATOM_NULL)
        { id := e.eventTargetId, type := UICommand.removeProperty,
          args_01 := some name, args_02 := none, nativePtr := none }) := by
  obtain ⟨v0, hv0, hget⟩ := ElementAttributes.getAttribute_of_hasAttribute _ _ hhas
  simp [Element.removeAttribute, jsValueToStdString, hhas, hget, hv0,
    ElementAttributes.removeAttribute, unordered_map.subscript, stringToNativeString]

/-- The call `Element::removeAttribute(name)` on an absent name does nothing. -/
theorem Element.removeAttribute_absent (ctx : JSContext) (e : ElementInstance) (name : String)
    (hhas : e.m_attributes.hasAttribute name = false) :
    Element.removeAttribute ctx e [JSValue.string name] = (Except.ok JS_NULL, e, ctx) := by
  simp [Element.removeAttribute, jsValueToStdString, hhas]

theorem ElementAttributes.hasAttribute_erase (self : ElementAttributes) (name : String) :
    ElementAttributes.hasAttribute
      { m_attributes := unordered_map.erase self.m_attributes name } name = false := by
  simp [ElementAttributes.hasAttribute_eq, unordered_map.lookup_erase_self]

/-- C6: for every element and every string name, `Element::removeAttribute(name)`
does not throw. When `hasAttribute(name)` is false it returns the element and
the whole context (table, index, queue) as they were. When `hasAttribute(name)`
is true it erases the entry, so that `hasAttribute(name)` becomes false, runs the
attribute-change notification with the old handle and `JS_ATOM_NULL`, and
appends exactly one remove-property record carrying the name. In both cases a
second call right after is a no-op. -/
theorem C6_removeAttribute (ctx : JSContext) (e : ElementInstance) (name : String) :
    (Element.removeAttribute ctx e [JSValue.string name]).1 = Except.ok JS_NULL
    ∧ (e.m_attributes.hasAttribute name = false →
        Element.removeAttribute ctx e [JSValue.string name] = (Except.ok JS_NULL, e, ctx))
    ∧ (e.m_attributes.hasAttribute name = true →
        (Element.removeAttribute ctx e [JSValue.string name]).2.1 =
          { e with m_attributes :=
            { m_attributes := unordered_map.erase e.m_attributes.m_attributes name } }
        ∧ (Element.removeAttribute ctx e [JSValue.string name]).2.1.m_attributes.hasAttribute name
            = false
        ∧ (Element.removeAttribute ctx e [JSValue.string name]).2.2.m_elementMapById =
            (ElementInstance._didModifyAttribute ctx
              (Element.removeAttribute ctx e [JSValue.string name]).2.1 name
              ((e.m_attributes.m_attributes.lookup name).getD JS_ATOM_NULL)
              JS_ATOM_NULL).m_elementMapById
        ∧ (Element.removeAttribute ctx e [JSValue.string name]).2.2.commands = ctx.commands ++
            [{ id := e.eventTargetId, type := UICommand.removeProperty,
               args_01 := some name, args_02 := none, nativePtr := none }])
    ∧ Element.removeAttribute (Element.removeAttribute ctx e [JSValue.string name]).2.2
        (Element.removeAttribute ctx e [JSValue.string name]).2.1 [JSValue.string name]
        = (Except.ok JS_NULL, (Element.removeAttribute ctx e [JSValue.string name]).2.1,
            (Element.removeAttribute ctx e [JSValue.string name]).2.2) := by
  by_cases hhas : e.m_attributes.hasAttribute name = true
  · rw [Element.removeAttribute_present ctx e name hhas]
    refine ⟨rfl, fun h => ?_, fun _ => ⟨rfl, ?_, ?_, ?_⟩, ?_⟩
    · rw [hhas] at h
      cases h
    · exact ElementAttributes.hasAttribute_erase _ _
    · simp only [addCommand_index]
      exact _didModifyAttribute_index_congr _ _ _ _ _ _ (JS_FreeAtom_index _ _)
    · simp
    · exact Element.removeAttribute_absent _ _ _ (ElementAttributes.hasAttribute_erase _ _)
  · simp only [Bool.not_eq_true] at hhas
    rw [Element.removeAttribute_absent ctx e name hhas]
    refine ⟨rfl, fun _ => rfl, fun h => ?_, ?_⟩
    · rw [hhas] at h
      cases h
    · exact Element.removeAttribute_absent _ _ _ hhas

/-- C6 witness: removing the `title` attribute of the sample element queues one
remove-property record after the record already in the queue. -/
theorem C6_removeAttribute_witness :
    sampleElementWithTitle.m_attributes.hasAttribute "title" = true
    ∧ (Element.removeAttribute sampleContext sampleElementWithTitle
        [JSValue.string "title"]).2.2.commands = sampleContext.commands ++
          [{ id := sampleElementWithTitle.eventTargetId, type := UICommand.removeProperty,
             args_01 := some "title", args_02 := none, nativePtr := none }] :=
  ⟨by decide,
   ((C6_removeAttribute sampleContext sampleElementWithTitle "title").2.2.1 (by decide)).2.2.2⟩

/-! ## C7: element construction -/

/-- C8: the registry is first-registration-wins. A registration for a tag that
is already registered leaves the whole registry unchanged, so after
`defineElement(t, c1)` then `defineElement(t, c2)` the registry is what the
first call left; when t was not registered before, it then maps t to c1; and
the entries of every other tag are as they were before the two calls. -/
theorem C8_defineElement_first_wins (elementCreatorMap : List (String × ElementCreator))
    (t : String) (c1 c2 : ElementCreator) :
    ((elementCreatorMap.lookup t).isSome = true →
        Element.defineElement elementCreatorMap t c2 = elementCreatorMap)
    ∧ Element.defineElement (Element.defineElement elementCreatorMap t c1) t c2
        = Element.defineElement elementCreatorMap t c1
    ∧ (elementCreatorMap.lookup t = none →
        (Element.defineElement (Element.defineElement elementCreatorMap t c1) t c2).lookup t
          = some c1)
    ∧ (∀ t2, t2 ≠ t →
        (Element.defineElement (Element.defineElement elementCreatorMap t c1) t c2).lookup t2
          = elementCreatorMap.lookup t2) := by
  have hreg : ∀ (m : List (String × ElementCreator)) (c : ElementCreator),
      (m.lookup t).isSome = true → Element.defineElement m t c = m := by
    intro m c h
    simp [Element.defineElement, unordered_map.count, h]
  have hfirst : ((Element.defineElement elementCreatorMap t c1).lookup t).isSome = true := by
    by_cases h : (elementCreatorMap.lookup t).isSome = true
    · rw [hreg _ _ h]; exact h
    · simp [Element.defineElement, unordered_map.count, h, unordered_map.lookup_assign_self]
  refine ⟨hreg _ _, hreg _ _ hfirst, fun h => ?_, fun t2 ht2 => ?_⟩
  · rw [hreg _ _ hfirst]
    simp [Element.defineElement, unordered_map.count, h, unordered_map.lookup_assign_self]
  · rw [hreg _ _ hfirst]
    by_cases h : (elementCreatorMap.lookup t).isSome = true
    · rw [hreg _ _ h]
    · simp [Element.defineElement, unordered_map.count, h,
        unordered_map.lookup_assign_of_ne _ _ _ _ ht2]

/-- C8 witness: registering `img` twice in a registry that already knows
`canvas` keeps the first creator for `img` and the entry of `canvas`. -/
theorem C8_defineElement_first_wins_witness :
    List.lookup "img" [("canvas", otherCreator)] = none
    ∧ (Element.defineElement (Element.defineElement [("canvas", otherCreator)] "img" sampleCreator)
        "img" otherCreator).lookup "img" = some sampleCreator
    ∧ (Element.defineElement (Element.defineElement [("canvas", otherCreator)] "img" sampleCreator)
        "img" otherCreator).lookup "canvas" = List.lookup "canvas" [("canvas", otherCreator)] :=
  ⟨by simp [List.lookup],
   (C8_defineElement_first_wins [("canvas", otherCreator)] "img" sampleCreator otherCreator).2.2.1
     (by simp [List.lookup]),
   (C8_defineElement_first_wins [("canvas", otherCreator)] "img" sampleCreator otherCreator).2.2.2
     "canvas" (by decide)⟩

/-! ## C9: reserved geometry accessors -/

/-- C9: for each of the twelve reserved geometry accessors, a read flushes the
command queue once and then issues one `getViewModuleProperty` request for the
native id of the element, in that order and with nothing else, whose single
argument is the enumeration value of that same accessor; the read returns the
answer of the native side and leaves the element as it was. The twelve
enumeration values are distinct (they are 0 to 11). A write returns null and
changes neither the element nor the context: no command, no flush, no request. -/
theorem C9_geometry_accessors (p : ViewModuleProperty) (native : NativeAnswer) (ctx : JSContext)
    (e : ElementInstance) (argv : List JSValue) :
    Element.geometryGetter p native ctx e argv =
      (Except.ok (native e.eventTargetId "getViewModuleProperty"
          [NativeValue.int32 (ViewModuleProperty.toInt32 p)]),
       e,
       { ctx with
         commands := [],
         dartCalls := ctx.dartCalls ++
           [DartCall.flushUICommand ctx.commands,
            DartCall.callNativeMethods e.eventTargetId "getViewModuleProperty"
              [NativeValue.int32 (ViewModuleProperty.toInt32 p)]] })
    ∧ Element.geometrySetter p ctx e argv = (Except.ok JS_NULL, e, ctx)
    ∧ Function.Injective ViewModuleProperty.toInt32
    ∧ (0 ≤ ViewModuleProperty.toInt32 p ∧ ViewModuleProperty.toInt32 p ≤ 11) := by
  refine ⟨?_, ?_, ?_, ?_⟩
  · cases p <;>
      simp [Element.geometryGetter, Element.offsetTopPropertyDescriptor.getter,
        Element.offsetLeftPropertyDescriptor.getter, Element.offsetWidthPropertyDescriptor.getter,
        Element.offsetHeightPropertyDescriptor.getter, Element.clientWidthPropertyDescriptor.getter,
        Element.clientHeightPropertyDescriptor.getter, Element.clientTopPropertyDescriptor.getter,
        Element.clientLeftPropertyDescriptor.getter, Element.scrollTopPropertyDescriptor.getter,
        Element.scrollLeftPropertyDescriptor.getter, Element.scrollHeightPropertyDescriptor.getter,
        Element.scrollWidthPropertyDescriptor.getter, flushUICommand,
        ElementInstance.callNativeMethods, Native_NewInt32]
  · cases p <;> rfl
  · intro a b h
    cases a <;> cases b <;> first | rfl | (exact absurd h (by decide))
  · cases p <;> decide

/-! ## C10: classification of a property read -/

/-- C10: `ElementInstance::getProperty` follows the ordered three-way decision
of the spec. The key is classified once, from whether it exists on the
prototype chain and from its first two characters; a reserved accessor is
resolved through the prototype, an event-handler key is read from the
event-handler slot, and any other key is read from the generic property slots.
The three classes exclude one another, and the prototype check comes first: a
key on the prototype chain is a reserved accessor even when it starts with
"on". -/
theorem C10_getProperty_classification (proto : PrototypeObject) (ctx : JSContext)
    (e : ElementInstance) (atom : JSAtom) :
    ElementInstance.getProperty proto ctx e atom =
      (match PropertyDispatch.classify (proto.has atom) (JS_AtomToCString atom) with
       | PropertyDispatch.ReservedAccessor => proto.get atom ctx e
       | PropertyDispatch.EventHandlerSlot =>
         (Except.ok (e.getPropertyHandler (JS_AtomToCString atom)), e, ctx)
       | PropertyDispatch.Expando =>
         (Except.ok (unordered_map.subscript e.m_properties atom (JSValue.int 0)).1,
          { e with m_properties :=
              (unordered_map.subscript e.m_properties atom (JSValue.int 0)).2 },
          ctx))
    ∧ (PropertyDispatch.classify (proto.has atom) (JS_AtomToCString atom)
          = PropertyDispatch.ReservedAccessor ↔ proto.has atom = true)
    ∧ (PropertyDispatch.classify (proto.has atom) (JS_AtomToCString atom)
          = PropertyDispatch.EventHandlerSlot ↔
        (proto.has atom = false ∧ (JS_AtomToCString atom).data.take 2 = ['o', 'n']))
    ∧ (PropertyDispatch.classify (proto.has atom) (JS_AtomToCString atom)
          = PropertyDispatch.Expando ↔
        (proto.has atom = false ∧ (JS_AtomToCString atom).data.take 2 ≠ ['o', 'n'])) := by
  have hon : (String.mk ((JS_AtomToCString atom).data.take 2) = "on") ↔
      (JS_AtomToCString atom).data.take 2 = ['o', 'n'] := by
    constructor
    · intro h
      exact congrArg String.data h
    · intro h
      rw [h]
  by_cases hp : proto.has atom = true
  · simp [ElementInstance.getProperty, PropertyDispatch.classify, hp]
  · simp only [Bool.not_eq_true] at hp
    by_cases hk : (JS_AtomToCString atom).data.take 2 = ['o', 'n']
    · have hk2 := hon.2 hk
      simp [ElementInstance.getProperty, PropertyDispatch.classify, hp, hk, hk2]
    · have hk2 : ¬ (String.mk ((JS_AtomToCString atom).data.take 2) = "on") := fun h => hk (hon.1 h)
      simp [ElementInstance.getProperty, PropertyDispatch.classify, hp, hk, hk2]

/-- C10 on three keys: `onclick` exists on the sample prototype chain and is
resolved through the prototype although it starts with "on"; `onload` does not
and is read from the event-handler slot; `data` is read from the generic
property slots. -/
theorem C10_getProperty_classification_witness :
    PropertyDispatch.classify (samplePrototype.has (some "onclick")) (JS_AtomToCString (some "onclick"))
        = PropertyDispatch.ReservedAccessor
    ∧ samplePrototype.has (some "onload") = false
    ∧ PropertyDispatch.classify (samplePrototype.has (some "onload")) (JS_AtomToCString (some "onload"))
        = PropertyDispatch.EventHandlerSlot
    ∧ PropertyDispatch.classify (samplePrototype.has (some "data")) (JS_AtomToCString (some "data"))
        = PropertyDispatch.Expando :=
  ⟨(C10_getProperty_classification samplePrototype emptyContext sampleElement
      (some "onclick")).2.1.2 (by decide),
   by decide,
   (C10_getProperty_classification samplePrototype emptyContext sampleElement
      (some "onload")).2.2.1.2 ⟨by decide, by decide⟩,
   (C10_getProperty_classification samplePrototype emptyContext sampleElement
      (some "data")).2.2.2.2 ⟨by decide, by decide⟩⟩

/-! ## Lemmas on the subtree traversal -/

mutual
/-- A handler that returns every node as it was leaves the subtree as it was. -/
theorem traverseNode_tree (handler : TraverseHandler)
    (hh : ∀ n c, (handler n c).2.1 = n) :
    ∀ (t : DOMNode) (ctx : JSContext), (traverseNode handler t ctx).1 = t
  | DOMNode.mk node childNodes, ctx => by
    have h1 := hh node ctx
    rw [traverseNode]
    rcases hr : handler node ctx with ⟨b, node1, ctx1⟩
    rw [hr] at h1
    simp only at h1
    subst h1
    cases b
    · simp only []
      rw [traverseNodes_tree handler hh childNodes ctx1]
    · rfl
/-- The same for a sequence of subtrees. -/
theorem traverseNodes_tree (handler : TraverseHandler)
    (hh : ∀ n c, (handler n c).2.1 = n) :
    ∀ (ts : List DOMNode) (ctx : JSContext), (traverseNodes handler ts ctx).1 = ts
  | [], ctx => by rw [traverseNodes]
  | t :: rest, ctx => by
    rw [traverseNodes]
    simp only []
    rw [traverseNode_tree handler hh t ctx, traverseNodes_tree handler hh rest _]
end

mutual
/-- A handler that only touches index entries of the node it visits leaves the
entries of an address outside the subtree as they were. -/
theorem traverseNode_index_other (handler : TraverseHandler) (p : Nat) (a : JSAtom)
    (hh : ∀ n c, n.self ≠ p →
      ((a, p) ∈ (handler n c).2.2.m_elementMapById ↔ (a, p) ∈ c.m_elementMapById)) :
    ∀ (t : DOMNode) (ctx : JSContext), p ∉ DOMNode.addresses t →
      ((a, p) ∈ (traverseNode handler t ctx).2.m_elementMapById ↔ (a, p) ∈ ctx.m_elementMapById)
  | DOMNode.mk node childNodes, ctx, hp => by
    rw [DOMNode.addresses] at hp
    simp only [List.mem_cons, not_or] at hp
    have h1 := hh node ctx (fun e => hp.1 e.symm)
    rw [traverseNode]
    rcases hr : handler node ctx with ⟨b, node1, ctx1⟩
    rw [hr] at h1
    simp only at h1
    cases b
    · simp only []
      rw [traverseNodes_index_other handler p a hh childNodes ctx1 hp.2]
      exact h1
    · exact h1
/-- The same for a sequence of subtrees. -/
theorem traverseNodes_index_other (handler : TraverseHandler) (p : Nat) (a : JSAtom)
    (hh : ∀ n c, n.self ≠ p →
      ((a, p) ∈ (handler n c).2.2.m_elementMapById ↔ (a, p) ∈ c.m_elementMapById)) :
    ∀ (ts : List DOMNode) (ctx : JSContext), p ∉ DOMNode.addressesOfList ts →
      ((a, p) ∈ (traverseNodes handler ts ctx).2.m_elementMapById ↔ (a, p) ∈ ctx.m_elementMapById)
  | [], ctx, _ => by rw [traverseNodes]
  | t :: rest, ctx, hp => by
    rw [DOMNode.addressesOfList] at hp
    simp only [List.mem_append, not_or] at hp
    rw [traverseNodes]
    simp only []
    rw [traverseNodes_index_other handler p a hh rest _ hp.2,
      traverseNode_index_other handler p a hh t ctx hp.1]
end

/-! ## Lemmas on the id index -/

/-- C11 fails on the code: `ElementInstance::setProperty` never asks whether the
key exists on the prototype chain. With `offsetWidth` and `onclick` on the chain
of the sample prototype, a read of `offsetWidth` is resolved through the
prototype, but a write of 5 to `offsetWidth` is stored in the generic property
slots, and a write to `onclick` is routed to the event-handler slot. -/
theorem C11_setProperty_ignores_prototype_chain :
    samplePrototype.has (some "offsetWidth") = true
    ∧ ElementInstance.getProperty samplePrototype emptyContext sampleElement (some "offsetWidth")
        = samplePrototype.get (some "offsetWidth") emptyContext sampleElement
    ∧ (ElementInstance.setProperty emptyContext sampleElement (some "offsetWidth")
        (JSValue.int 5)).2.1.m_properties = [(some "offsetWidth", JSValue.int 5)]
    ∧ samplePrototype.has (some "onclick") = true
    ∧ (ElementInstance.setProperty emptyContext sampleElement (some "onclick")
        (JSValue.object 40)).2.1.propertyEventHandler = [("onclick", JSValue.object 40)] := by
  refine ⟨by decide, rfl, by decide, by decide, by decide⟩

/-! ## C12: `Element::toBlob` -/

/-- C12: `Element::toBlob` throws a TypeError and returns the element and the
whole context as they were (no flush, no native call, no deferred result
created) whenever its first argument is present and not a number, or the native
`toBlob` hook is not registered. In every other case it flushes the command
queue, creates the deferred result, issues exactly one native `toBlob` call
with the native id of the element and the pixel ratio, which is the number
passed or 1 when no argument is given, and returns the new promise. -/
theorem C12_toBlob (dartMethod : DartMethodPointer) (ctx : JSContext) (e : ElementInstance)
    (argv : List JSValue) :
    (((∃ v rest, argv = v :: rest ∧ JS_IsNumber v = false) ∨ dartMethod.toBlob_registered = false) →
      (∃ msg, Element.toBlob dartMethod ctx e argv =
        (Except.error { kind := JSErrorKind.TypeError, message := msg }, e, ctx)))
    ∧ (¬ ((∃ v rest, argv = v :: rest ∧ JS_IsNumber v = false)
          ∨ dartMethod.toBlob_registered = false) →
      ∃ ratio,
        (argv = [] → ratio = 1)
        ∧ (∀ n rest, argv = JSValue.int n :: rest → ratio = n)
        ∧ Element.toBlob dartMethod ctx e argv =
          (Except.ok (JSValue.object ctx.heapTop), e,
           { ctx with
             commands := [],
             heapTop := ctx.heapTop + 3,
             dartCalls := ctx.dartCalls ++
               [DartCall.flushUICommand ctx.commands,
                DartCall.toBlob
                  { devicePixelRatio := ratio, promise := JSValue.object ctx.heapTop,
                    resolve := JSValue.object (ctx.heapTop + 1),
                    reject := JSValue.object (ctx.heapTop + 2) }
                  e.eventTargetId ratio] })) := by
  constructor
  · rintro (⟨v, rest, rfl, hv⟩ | hreg)
    · exact ⟨"Failed to export blob: parameter 2 (devicePixelRatio) is not an number.",
        by simp [Element.toBlob, hv, JS_ThrowTypeError]⟩
    · cases argv with
      | nil =>
        exact ⟨"Failed to export blob: dart method (toBlob) is not registered.",
          by simp [Element.toBlob, hreg, JS_ThrowTypeError]⟩
      | cons v rest =>
        cases hv : JS_IsNumber v
        · exact ⟨"Failed to export blob: parameter 2 (devicePixelRatio) is not an number.",
            by simp [Element.toBlob, hv, JS_ThrowTypeError]⟩
        · exact ⟨"Failed to export blob: dart method (toBlob) is not registered.",
            by simp [Element.toBlob, hv, hreg, JS_ThrowTypeError]⟩
  · intro h
    simp only [not_or, not_exists, not_and, Bool.not_eq_false] at h
    obtain ⟨hargs, hreg⟩ := h
    cases argv with
    | nil =>
      refine ⟨1, fun _ => rfl, ?_, ?_⟩
      · intro n rest hn
        cases hn
      · simp [Element.toBlob, hreg, flushUICommand, JS_NewPromiseCapability, dart_toBlob]
    | cons v rest =>
      have hv := hargs v rest rfl
      cases v with
      | int n =>
        refine ⟨n, ?_, ?_, ?_⟩
        · intro hn
          cases hn
        · intro m rest2 hm
          simp only [List.cons.injEq, JSValue.int.injEq] at hm
          exact hm.1
        · simp [Element.toBlob, JS_IsNumber, JS_ToFloat64, hreg, flushUICommand,
            JS_NewPromiseCapability, dart_toBlob]
      | _ => simp [JS_IsNumber] at hv

/-- C12 witness: with the hook registered, `toBlob(2)` on the sample element
flushes the one queued record and issues one export for native id 3 at ratio
2; `toBlob("x")` and a call without the hook throw and change nothing. -/
theorem C12_toBlob_witness :
    (∃ msg, Element.toBlob { toBlob_registered := true } sampleContext sampleElement
        [JSValue.string "x"] =
      (Except.error { kind := JSErrorKind.TypeError, message := msg }, sampleElement,
        sampleContext))
    ∧ (∃ msg, Element.toBlob { toBlob_registered := false } sampleContext sampleElement [] =
      (Except.error { kind := JSErrorKind.TypeError, message := msg }, sampleElement,
        sampleContext))
    ∧ (∃ ratio,
        ([JSValue.int 2] = [] → ratio = 1)
        ∧ (∀ n rest, [JSValue.int 2] = JSValue.int n :: rest → ratio = n)
        ∧ Element.toBlob { toBlob_registered := true } sampleContext sampleElement
            [JSValue.int 2] =
          (Except.ok (JSValue.object sampleContext.heapTop), sampleElement,
           { sampleContext with
             commands := [],
             heapTop := sampleContext.heapTop + 3,
             dartCalls := sampleContext.dartCalls ++
               [DartCall.flushUICommand sampleContext.commands,
                DartCall.toBlob
                  { devicePixelRatio := ratio, promise := JSValue.object sampleContext.heapTop,
                    resolve := JSValue.object (sampleContext.heapTop + 1),
                    reject := JSValue.object (sampleContext.heapTop + 2) }
                  sampleElement.eventTargetId ratio] }))
    ∧ (Element.toBlob { toBlob_registered := true } sampleContext sampleElement
        [JSValue.int 2]).2.2.dartCalls =
        [DartCall.flushUICommand sampleContext.commands,
         DartCall.toBlob
           { devicePixelRatio := 2, promise := JSValue.object 16, resolve := JSValue.object 17,
             reject := JSValue.object 18 } 3 2] :=
  ⟨(C12_toBlob { toBlob_registered := true } sampleContext sampleElement
      [JSValue.string "x"]).1 (Or.inl ⟨JSValue.string "x", [], rfl, by decide⟩),
   (C12_toBlob { toBlob_registered := false } sampleContext sampleElement []).1 (Or.inr rfl),
   (C12_toBlob { toBlob_registered := true } sampleContext sampleElement [JSValue.int 2]).2
      (by simp [JS_IsNumber]),
   by decide⟩

/-! ## C13: settling the deferred result -/

/-- C13 fails on the code in one branch. When the error argument is null and the
construction of the blob raises an exception, the callback hands the exception
to the exception handler of the context and calls neither resolve nor reject,
so the deferred result is left unsettled. The other two branches do what the
claim says: with no error and a blob built, resolve is called once with the
blob and reject is not called; with an error message, reject is called once
with the error object that carries the message and resolve is not called. -/
theorem C13_blobCallback_settle (bytes : List Nat) (message : String) (b : Bool) :
    settleCalls (blobCallback true none bytes) = []
    ∧ BlobCallbackOp.handleException BlobCallbackRef.blobValue ∈ blobCallback true none bytes
    ∧ settleCalls (blobCallback false none bytes) =
        [BlobCallbackOp.JS_Call (some BlobCallbackRef.ret) BlobCallbackRef.resolve
          BlobCallbackRef.promise [BlobCallbackRef.blobValue]]
    ∧ settleCalls (blobCallback b (some message) bytes) =
        [BlobCallbackOp.JS_Call none BlobCallbackRef.reject BlobCallbackRef.promise
          [BlobCallbackRef.errorObject]]
    ∧ BlobCallbackOp.JS_NewString BlobCallbackRef.errorMessage message
        ∈ blobCallback b (some message) bytes
    ∧ BlobCallbackOp.JS_DefinePropertyValueStr BlobCallbackRef.errorObject "message"
        BlobCallbackRef.errorMessage ∈ blobCallback b (some message) bytes := by
  refine ⟨?_, ?_, ?_, ?_, ?_, ?_⟩
  · simp [settleCalls, blobCallback, List.filter]
  · simp [blobCallback]
  · simp [settleCalls, blobCallback, List.filter]
  · simp [settleCalls, blobCallback, List.filter]
  · simp [blobCallback]
  · simp [blobCallback]

/-! ## C14: release of the resolve and reject handles -/

/-- C14: in every branch of the completion callback, that is, whatever the error
argument, the byte buffer and the outcome of the blob construction are, the
resolve handle and the reject handle of the completion context are each
released exactly once, and these two releases are the last two engine calls of
the callback. -/
theorem C14_blobCallback_releases_once (blobValue_isException : Bool) (error : Option String)
    (bytes : List Nat) :
    releaseCount (blobCallback blobValue_isException error bytes) BlobCallbackRef.resolve = 1
    ∧ releaseCount (blobCallback blobValue_isException error bytes) BlobCallbackRef.reject = 1
    ∧ ∃ before, blobCallback blobValue_isException error bytes =
        before ++ [BlobCallbackOp.JS_FreeValue BlobCallbackRef.resolve,
                   BlobCallbackOp.JS_FreeValue BlobCallbackRef.reject] := by
  refine ⟨?_, ?_, ?_⟩
  · cases error <;> cases blobValue_isException <;>
      simp [releaseCount, blobCallback, List.count_cons]
  · cases error <;> cases blobValue_isException <;>
      simp [releaseCount, blobCallback, List.count_cons]
  · exact ⟨_, rfl⟩

/-! ## C15: clone, then destroy the source -/

theorem unordered_map.assign_of_lookup_none {κ ν : Type} [DecidableEq κ] (m : List (κ × ν))
    (k : κ) (v : ν) (h : k ∉ m.map Prod.fst) : unordered_map.assign m k v = m ++ [(k, v)] := by
  induction m with
  | nil => rfl
  | cons p rest ih =>
    obtain ⟨k1, v1⟩ := p
    simp only [List.map_cons, List.mem_cons, not_or] at h
    have h1 : ¬ k1 = k := fun e => h.1 e.symm
    simp [unordered_map.assign, h1, ih h.2]

theorem JS_DupAtom_atomRefs (ctx : JSContext) (v a : JSAtom) :
    (JS_DupAtom ctx v).2.atomRefs a =
      ctx.atomRefs a + (if a = v ∧ v ≠ JS_ATOM_NULL then 1 else 0) := by
  cases v with
  | none => simp [JS_DupAtom, JS_ATOM_NULL]
  | some s =>
    by_cases h : a = some s
    · subst h; simp [JS_DupAtom, JS_ATOM_NULL]
    · simp [JS_DupAtom, JS_ATOM_NULL, h, Function.update_noteq h]

theorem JS_FreeAtom_atomRefs (ctx : JSContext) (v a : JSAtom) :
    (JS_FreeAtom ctx v).atomRefs a =
      ctx.atomRefs a - (if a = v ∧ v ≠ JS_ATOM_NULL then 1 else 0) := by
  cases v with
  | none => simp [JS_FreeAtom, JS_ATOM_NULL]
  | some s =>
    by_cases h : a = some s
    · subst h; simp [JS_FreeAtom, JS_ATOM_NULL]
    · simp [JS_FreeAtom, JS_ATOM_NULL, h, Function.update_noteq h]

/-- Copying a source with distinct names into a table that has none of them
appends the source entries and retains each non-null handle once per entry. -/
theorem ElementAttributes.copyWith_aux (l : List (String × JSAtom)) :
    ∀ (d : List (String × JSAtom)) (ctx : JSContext),
      (l.map Prod.fst).Nodup → (∀ k, k ∈ l.map Prod.fst → k ∉ d.map Prod.fst) →
      (ElementAttributes.copyWith ctx { m_attributes := d } { m_attributes := l }).1.m_attributes
          = d ++ l
      ∧ ∀ a : JSAtom, a ≠ JS_ATOM_NULL →
          (ElementAttributes.copyWith ctx { m_attributes := d } { m_attributes := l }).2.atomRefs a
            = ctx.atomRefs a + ((l.map Prod.snd).count a : Nat) := by
  induction l with
  | nil =>
    intro d ctx _ _
    simp [ElementAttributes.copyWith]
  | cons p rest ih =>
    intro d ctx hnd hdis
    obtain ⟨k, v⟩ := p
    simp only [List.map_cons, List.nodup_cons] at hnd
    have hk : k ∉ d.map Prod.fst := hdis k (by simp)
    have hstep : ElementAttributes.copyWith ctx { m_attributes := d }
        { m_attributes := (k, v) :: rest } =
        ElementAttributes.copyWith (JS_DupAtom ctx v).2 { m_attributes := d ++ [(k, v)] }
          { m_attributes := rest } := by
      simp [ElementAttributes.copyWith, unordered_map.assign_of_lookup_none d k _ hk, JS_DupAtom]
      cases v <;> rfl
    rw [hstep]
    have hdis2 : ∀ k2, k2 ∈ rest.map Prod.fst → k2 ∉ (d ++ [(k, v)]).map Prod.fst := by
      intro k2 hk2
      simp only [List.map_append, List.map_cons, List.map_nil, List.mem_append, List.mem_singleton,
        not_or]
      refine ⟨hdis k2 (by simp [hk2]), ?_⟩
      rintro rfl
      exact hnd.1 hk2
    obtain ⟨h1, h2⟩ := ih (d ++ [(k, v)]) (JS_DupAtom ctx v).2 hnd.2 hdis2
    refine ⟨by rw [h1]; simp, ?_⟩
    intro a ha
    rw [h2 a ha, JS_DupAtom_atomRefs]
    by_cases hav : a = v
    · subst hav
      simp [ha, List.count_cons]
      ring
    · have hva : ¬ v = a := fun e => hav e.symm
      simp [hav, List.count_cons, hva]

/-- Destroying a table releases each non-null handle once per entry. -/
theorem ElementAttributes.destructor_aux (l : List (String × JSAtom)) :
    ∀ (ctx : JSContext) (a : JSAtom), a ≠ JS_ATOM_NULL →
      (ElementAttributes.destructor ctx { m_attributes := l }).atomRefs a
        = ctx.atomRefs a - ((l.map Prod.snd).count a : Nat) := by
  induction l with
  | nil =>
    intro ctx a _
    simp [ElementAttributes.destructor]
  | cons p rest ih =>
    intro ctx a ha
    obtain ⟨k, v⟩ := p
    have hstep : ElementAttributes.destructor ctx { m_attributes := (k, v) :: rest } =
        ElementAttributes.destructor (JS_FreeAtom ctx v) { m_attributes := rest } := rfl
    rw [hstep, ih _ a ha, JS_FreeAtom_atomRefs]
    by_cases hav : a = v
    · subst hav
      simp [ha, List.count_cons]
      ring
    · have hva : ¬ v = a := fun e => hav e.symm
      simp [hav, List.count_cons, hva]

/-- C15: let S be a table (its names pairwise distinct) whose non-null handles
are live, and copy it with `copyWith` into an empty table D. Then D holds
exactly the entries of S, so every name maps to the same handle, and the
reference count of every non-null handle has grown by the number of entries of
S that hold it. After S is then destroyed (one release per entry of S), D still
reads every name as S did, the reference counts are back to what they were
before the copy, and every non-null handle stored in D has a positive
reference count. -/
theorem C15_clone_then_destroy_source (ctx : JSContext) (S : ElementAttributes)
    (hkeys : (S.m_attributes.map Prod.fst).Nodup)
    (hlive : ∀ p ∈ S.m_attributes, p.2 ≠ JS_ATOM_NULL → 0 < ctx.atomRefs p.2) :
    (ElementAttributes.copyWith ctx { m_attributes := [] } S).1 = S
    ∧ (∀ name, (ElementAttributes.copyWith ctx { m_attributes := [] } S).1.m_attributes.lookup name
        = S.m_attributes.lookup name)
    ∧ (∀ a : JSAtom, a ≠ JS_ATOM_NULL →
        (ElementAttributes.copyWith ctx { m_attributes := [] } S).2.atomRefs a
          = ctx.atomRefs a + ((S.m_attributes.map Prod.snd).count a : Nat))
    ∧ (∀ name,
        (ElementAttributes.copyWith ctx { m_attributes := [] } S).1.hasAttribute name
          = S.hasAttribute name
        ∧ ((ElementAttributes.copyWith ctx { m_attributes := [] } S).1.getAttribute name).1
          = (S.getAttribute name).1)
    ∧ (∀ a : JSAtom, a ≠ JS_ATOM_NULL →
        (ElementAttributes.destructor
          (ElementAttributes.copyWith ctx { m_attributes := [] } S).2 S).atomRefs a
          = ctx.atomRefs a)
    ∧ (∀ p ∈ (ElementAttributes.copyWith ctx { m_attributes := [] } S).1.m_attributes,
        p.2 ≠ JS_ATOM_NULL →
        0 < (ElementAttributes.destructor
              (ElementAttributes.copyWith ctx { m_attributes := [] } S).2 S).atomRefs p.2) := by
  obtain ⟨l⟩ := S
  obtain ⟨h1, h2⟩ := ElementAttributes.copyWith_aux l [] ctx hkeys (by simp)
  have hD : (ElementAttributes.copyWith ctx { m_attributes := [] } { m_attributes := l }).1
      = { m_attributes := l } := by
    cases hc : (ElementAttributes.copyWith ctx { m_attributes := [] } { m_attributes := l }).1
    rw [hc] at h1
    simp only [List.nil_append] at h1
    rw [h1]
  have hback : ∀ a : JSAtom, a ≠ JS_ATOM_NULL →
      (ElementAttributes.destructor
        (ElementAttributes.copyWith ctx { m_attributes := [] } { m_attributes := l }).2
        { m_attributes := l }).atomRefs a = ctx.atomRefs a := by
    intro a ha
    rw [ElementAttributes.destructor_aux l _ a ha, h2 a ha]
    ring
  refine ⟨hD, ?_, h2, ?_, hback, ?_⟩
  · intro name
    rw [hD]
  · intro name
    rw [hD]
    exact ⟨rfl, rfl⟩
  · intro p hp hne
    rw [hD] at hp
    rw [hback p.2 hne]
    exact hlive p hp hne

/-- C15 witness: the sample table, in which "title" and "alt" share the handle
of "t"; after the copy that handle is counted 4 times, and after the source is
destroyed it is counted 2 times again. -/
theorem C15_clone_then_destroy_source_witness :
    (sampleTable.m_attributes.map Prod.fst).Nodup
    ∧ (∀ p ∈ sampleTable.m_attributes, p.2 ≠ JS_ATOM_NULL → 0 < sampleTableContext.atomRefs p.2)
    ∧ (ElementAttributes.copyWith sampleTableContext { m_attributes := [] } sampleTable).1
        = sampleTable
    ∧ (ElementAttributes.copyWith sampleTableContext { m_attributes := [] }
        sampleTable).2.atomRefs (some "t") = 4
    ∧ (ElementAttributes.destructor
        (ElementAttributes.copyWith sampleTableContext { m_attributes := [] } sampleTable).2
        sampleTable).atomRefs (some "t") = 2 :=
  ⟨by decide, by decide,
   (C15_clone_then_destroy_source sampleTableContext sampleTable (by decide) (by decide)).1,
   by decide, by decide⟩

/-! ## C16: the `children` accessor -/

theorem children_fold (cs : List DOMNode) :
    ∀ (acc : JSArray),
      cs.foldl
        (fun (acc : JSArray) childNode =>
          if childNode.node.nodeType = NodeType.ELEMENT_NODE then
            acc.push (NodeInstance.instanceObject childNode.node)
          else
            acc)
        acc
      = { acc with elements := acc.elements ++
            ((cs.filter (fun c => decide (c.node.nodeType = NodeType.ELEMENT_NODE))).map
              (fun c => NodeInstance.instanceObject c.node)) } := by
  induction cs with
  | nil => intro acc; simp
  | cons c rest ih =>
    intro acc
    by_cases h : c.node.nodeType = NodeType.ELEMENT_NODE
    · rw [List.foldl_cons, List.filter_cons]
      simp only [h, if_true, decide_True, List.map_cons]
      rw [ih]
      simp [JSArray.push]
    · rw [List.foldl_cons, List.filter_cons]
      simp only [h, if_false, decide_False]
      rw [ih]
      simp

/-- C16: a read of `children` returns a newly created array whose elements are
the script objects of the child nodes with node type `ELEMENT_NODE`, in the
order of the child sequence and with nothing else; the element with its child
sequence is returned as it was, and the context changes only by the allocation
of the array, so a second read gives another array with the same elements. A
write to `children` returns null and changes nothing. -/
theorem C16_children_accessor (ctx : JSContext) (element : DOMNode) (argv : List JSValue) :
    (Element.childrenPropertyDescriptor.getter ctx element argv).1.elements =
      (element.childNodes.filter (fun c => decide (c.node.nodeType = NodeType.ELEMENT_NODE))).map
        (fun c => NodeInstance.instanceObject c.node)
    ∧ (Element.childrenPropertyDescriptor.getter ctx element argv).1.object
        = JSValue.object ctx.heapTop
    ∧ (Element.childrenPropertyDescriptor.getter ctx element argv).2.1 = element
    ∧ (Element.childrenPropertyDescriptor.getter ctx element argv).2.2
        = { ctx with heapTop := ctx.heapTop + 1 }
    ∧ (Element.childrenPropertyDescriptor.getter
          (Element.childrenPropertyDescriptor.getter ctx element argv).2.2
          (Element.childrenPropertyDescriptor.getter ctx element argv).2.1 argv).1.object
        ≠ (Element.childrenPropertyDescriptor.getter ctx element argv).1.object
    ∧ (Element.childrenPropertyDescriptor.getter
          (Element.childrenPropertyDescriptor.getter ctx element argv).2.2
          (Element.childrenPropertyDescriptor.getter ctx element argv).2.1 argv).1.elements
        = (Element.childrenPropertyDescriptor.getter ctx element argv).1.elements
    ∧ Element.childrenPropertyDescriptor.setter ctx element argv = (Except.ok JS_NULL, element, ctx) := by
  have hget : ∀ (c : JSContext),
      Element.childrenPropertyDescriptor.getter c element argv =
        ({ object := JSValue.object c.heapTop,
           elements := (element.childNodes.filter
              (fun c => decide (c.node.nodeType = NodeType.ELEMENT_NODE))).map
                (fun c => NodeInstance.instanceObject c.node) },
         element, { c with heapTop := c.heapTop + 1 }) := by
    intro c
    simp [Element.childrenPropertyDescriptor.getter, JS_NewArray, children_fold]
  rw [hget ctx]
  refine ⟨rfl, rfl, rfl, rfl, ?_, ?_, rfl⟩
  · simp only [hget]
    simp
  · simp only [hget]

/-- C16 witness: on the sample tree, of the text child and the `span` child
only the `span`, at address 10, is returned. -/
theorem C16_children_accessor_witness :
    (Element.childrenPropertyDescriptor.getter sampleContext sampleWorld.element []).1.elements
      = [JSValue.object 10] :=
  (C16_children_accessor sampleContext sampleWorld.element []).1.trans (by decide)

/-! ## C17: the id-rename sequence -/

mutual
/-- A handler that never stops the visit is run on the nodes in pre-order. -/
theorem traverseNode_ctx (handler : TraverseHandler)
    (hs : ∀ n c, (handler n c).1 = false) :
    ∀ (t : DOMNode) (ctx : JSContext),
      (traverseNode handler t ctx).2
        = (DOMNode.preorder t).foldl (fun c n => (handler n c).2.2) ctx
  | DOMNode.mk node childNodes, ctx => by
    have h1 := hs node ctx
    rw [traverseNode, DOMNode.preorder, List.foldl_cons]
    rcases hr : handler node ctx with ⟨b, node1, ctx1⟩
    rw [hr] at h1
    simp only at h1
    subst h1
    simp only []
    rw [traverseNodes_ctx handler hs childNodes ctx1]
/-- The same for a sequence of subtrees. -/
theorem traverseNodes_ctx (handler : TraverseHandler)
    (hs : ∀ n c, (handler n c).1 = false) :
    ∀ (ts : List DOMNode) (ctx : JSContext),
      (traverseNodes handler ts ctx).2
        = (DOMNode.preorderOfList ts).foldl (fun c n => (handler n c).2.2) ctx
  | [], ctx => by rw [traverseNodes, DOMNode.preorderOfList]; rfl
  | t :: rest, ctx => by
    rw [traverseNodes, DOMNode.preorderOfList, List.foldl_append]
    simp only []
    rw [traverseNodes_ctx handler hs rest _, traverseNode_ctx handler hs t ctx]
end

@[simp] theorem addCommand_atomRefs (ctx : JSContext) (item : UICommandItem) :
    (addCommand ctx item).atomRefs = ctx.atomRefs := rfl

@[simp] theorem addElementById_atomRefs (ctx : JSContext) (id : JSAtom) (e : Nat) :
    (addElementById ctx id e).atomRefs = ctx.atomRefs := by
  unfold addElementById; split <;> rfl

@[simp] theorem removeElementById_atomRefs (ctx : JSContext) (id : JSAtom) (e : Nat) :
    (removeElementById ctx id e).atomRefs = ctx.atomRefs := rfl

@[simp] theorem _didModifyAttribute_atomRefs (ctx : JSContext) (self : ElementInstance)
    (name : String) (o n : JSAtom) :
    (ElementInstance._didModifyAttribute ctx self name o n).atomRefs = ctx.atomRefs := by
  unfold ElementInstance._didModifyAttribute ElementInstance._beforeUpdateId
  split_ifs <;> simp

/-- C19, as stated, fails on the code: the table write returns `JS_NULL`, not
the handle stored before. Overwriting the `title` attribute of the sample
element, whose handle is that of "t", returns null. -/
theorem C19_table_setAttribute_counterexample :
    (sampleElementWithTitle.m_attributes.getAttribute "title").1 = some "t"
    ∧ (sampleElementWithTitle.m_attributes.setAttribute "title" (some "u")).1 = Except.ok JS_NULL
    ∧ (sampleElementWithTitle.m_attributes.setAttribute "title" (some "u")).1
        ≠ Except.ok (JS_AtomToValue (some "t")) := by
  decide

/-- C19 (amended): `ElementAttributes::setAttribute` on a name that is not
numeric-looking inserts or overwrites the entry, so that the name is then bound
to the new handle and every other name is bound as before, and it returns
`JS_NULL` whether or not the name was set before. It does not release the old
handle: in `Element::setAttribute`, which reads the old handle before the
write, the count of a handle changes by one retain if it is the new handle and
by one release if it is the old one, and by nothing else. -/
theorem C19_table_setAttribute (self : ElementAttributes) (name : String) (atom : JSAtom)
    (hnum : isNumberIndex name = false) :
    (self.setAttribute name atom).1 = Except.ok JS_NULL
    ∧ (self.setAttribute name atom).2.m_attributes.lookup name = some atom
    ∧ (self.setAttribute name atom).2.hasAttribute name = true
    ∧ ((self.setAttribute name atom).2.getAttribute name).1 = atom
    ∧ (∀ other, other ≠ name →
        (self.setAttribute name atom).2.m_attributes.lookup other
          = self.m_attributes.lookup other)
    ∧ (∀ (ctx : JSContext) (e : ElementInstance) (v : JSValue) (a : JSAtom),
        e.m_attributes = self → tolower name = name →
        (Element.setAttribute ctx e [JSValue.string name, v]).2.2.atomRefs a
          = ctx.atomRefs a
            + (if a = some (JS_ToCString v) then 1 else 0)
            - (if a = (self.m_attributes.lookup name).getD JS_ATOM_NULL
                  ∧ (self.m_attributes.lookup name).getD JS_ATOM_NULL ≠ JS_ATOM_NULL
               then 1 else 0)) := by
  rw [ElementAttributes.setAttribute_of_not_isNumberIndex self name atom hnum]
  refine ⟨rfl, unordered_map.lookup_assign_self _ _ _, ?_, ?_, ?_, ?_⟩
  · simp [ElementAttributes.hasAttribute_eq, hnum, unordered_map.lookup_assign_self]
  · simp [ElementAttributes.getAttribute, hnum, unordered_map.subscript,
      unordered_map.lookup_assign_self]
  · intro other ho
    exact unordered_map.lookup_assign_of_ne _ _ _ _ ho
  · intro ctx e v a he hlow
    have hnum2 : isNumberIndex (tolower name) = false := by rw [hlow]; exact hnum
    rw [Element.setAttribute_string ctx e name v hnum2]
    simp only [addCommand_atomRefs, JS_FreeAtom_atomRefs, _didModifyAttribute_atomRefs, hlow, he]
    rw [show (JS_ValueToAtom ctx (JS_ToString v)).2 = (JS_DupAtom ctx (some (JS_ToCString v))).2
      from rfl, JS_DupAtom_atomRefs]
    simp [JS_ATOM_NULL]

/-- C19 witness: overwriting `title` on the sample element, in a context that
counts the old handle twice, returns null, binds the new handle, and leaves the
old handle counted once. -/
theorem C19_table_setAttribute_witness :
    isNumberIndex "title" = false
    ∧ (sampleElementWithTitle.m_attributes.setAttribute "title" (some "u")).1 = Except.ok JS_NULL
    ∧ ((sampleElementWithTitle.m_attributes.setAttribute "title" (some "u")).2.getAttribute
        "title").1 = some "u"
    ∧ (Element.setAttribute sampleTableContext sampleElementWithTitle
        [JSValue.string "title", JSValue.string "u"]).2.2.atomRefs (some "t") = 1 :=
  ⟨by decide,
   (C19_table_setAttribute sampleElementWithTitle.m_attributes "title" (some "u") (by decide)).1,
   (C19_table_setAttribute sampleElementWithTitle.m_attributes "title" (some "u")
      (by decide)).2.2.2.1,
   ((C19_table_setAttribute sampleElementWithTitle.m_attributes "title" (some "u")
      (by decide)).2.2.2.2.2 sampleTableContext sampleElementWithTitle (JSValue.string "u")
      (some "t") rfl (by decide)).trans (by decide)⟩

/-! ## C20: the table read -/

/-- C20 fails on the code for a name that is not set: the read is `m_attributes[name]`,
which first inserts the name with `JS_ATOM_NULL`. On the empty table the read
of "title" returns `JS_ATOM_NULL` and leaves the entry ("title", `JS_ATOM_NULL`)
behind, so `hasAttribute("title")`, false before, is true after. A
numeric-looking name ("1") and a set name ("title" on the sample element) are
read without a change of the table, as the claim says. -/
theorem C20_table_getAttribute_inserts :
    ElementAttributes.hasAttribute { m_attributes := [] } "title" = false
    ∧ ElementAttributes.getAttribute { m_attributes := [] } "title"
        = (JS_ATOM_NULL, { m_attributes := [("title", JS_ATOM_NULL)] })
    ∧ (ElementAttributes.getAttribute { m_attributes := [] } "title").2.hasAttribute "title" = true
    ∧ ElementAttributes.getAttribute { m_attributes := [] } "1"
        = (JS_ATOM_NULL, { m_attributes := [] })
    ∧ sampleElementWithTitle.m_attributes.getAttribute "title"
        = (some "t", sampleElementWithTitle.m_attributes) := by
  decide

end kraken.binding.qjs
